import Mathlib

/-!
# The logging core of `util/logger.hpp`

A shallow embedding of the C++ logger (levels, sinks, `Logger`, `Logger::Stream`,
`LoggerRegistry`) as pure state-passing functions over a `World`, followed by the
properties proved about it.

Objects held through `std::shared_ptr` live in two heaps of the `World`, addressed by
natural numbers.  Mutexes are not represented: every function below is one atomic step.
-/

namespace Prc

/-! ## Levels (`LogLevels`, `enum class LogLevel : u8`) -/

/-- The enumerators of `enum class LogLevel`, in the order the `LogLevels` list declares them. -/
inductive LogLevel where
  | None
  | Trace
  | Debug
  | Info
  | Warning
  | Error
  | Fatal
  deriving DecidableEq, Repr

/-- Underlying `u8` value of an enumerator: its position in the `LogLevels` list. -/
def LogLevel.val : LogLevel → Nat
  | LogLevel.None => 0
  | LogLevel.Trace => 1
  | LogLevel.Debug => 2
  | LogLevel.Info => 3
  | LogLevel.Warning => 4
  | LogLevel.Error => 5
  | LogLevel.Fatal => 6

/-- The built-in comparison of a scoped enumeration compares the underlying values. -/
instance : LE LogLevel := ⟨fun a b => a.val ≤ b.val⟩

instance (a b : LogLevel) : Decidable (a ≤ b) := inferInstanceAs (Decidable (a.val ≤ b.val))

/-- All enumerators, lowest first. -/
def LogLevel.all : List LogLevel :=
  [LogLevel.None, LogLevel.Trace, LogLevel.Debug, LogLevel.Info, LogLevel.Warning,
   LogLevel.Error, LogLevel.Fatal]

/-- `utils::logger::from_string`: the chain of `if (str == #ID) return LogLevel::ID;`. -/
def from_string (str : String) : Option LogLevel :=
  if str = "None" then some LogLevel.None
  else if str = "Trace" then some LogLevel.Trace
  else if str = "Debug" then some LogLevel.Debug
  else if str = "Info" then some LogLevel.Info
  else if str = "Warning" then some LogLevel.Warning
  else if str = "Error" then some LogLevel.Error
  else if str = "Fatal" then some LogLevel.Fatal
  else none

/-- `logger::details::reset_color`, the characters `\033[0m`. -/
def reset_color : String := "\x1b[0m"

/-- `logger::details::to_string(LogLevel)`: the stringised enumerator `#ID`. -/
def to_string : LogLevel → String
  | LogLevel.None => "None"
  | LogLevel.Trace => "Trace"
  | LogLevel.Debug => "Debug"
  | LogLevel.Info => "Info"
  | LogLevel.Warning => "Warning"
  | LogLevel.Error => "Error"
  | LogLevel.Fatal => "Fatal"

/-- `logger::details::get_color`: the second column of the `LogLevels` list, character for
character (the entry of `Fatal` is `\033[0;96`). -/
def get_color : LogLevel → String
  | LogLevel.None => "\x1b[0m"
  | LogLevel.Trace => "\x1b[34m"
  | LogLevel.Debug => "\x1b[35m"
  | LogLevel.Info => "\x1b[37m"
  | LogLevel.Warning => "\x1b[33m"
  | LogLevel.Error => "\x1b[31m"
  | LogLevel.Fatal => "\x1b[0;96"

/-! ## Sinks (`logger::sinks`) -/

/-- An output stream as a sink uses it: the characters still held in the stream buffer and the
characters that have reached the destination. -/
structure OStream where
  buffer : String
  dest : String
  deriving DecidableEq, Repr

/-- `std::ostream::write(data, size)` and `operator<<` of a string view: the characters are put
into the stream, unformatted.  They stay in the buffer until a flush; a stream that writes its
buffer out earlier, when it is full, moves them to the destination sooner, in the same order. -/
def OStream.write (os : OStream) (msg : String) : OStream :=
  { os with buffer := os.buffer ++ msg }

/-- `std::ostream::flush()`: the buffered characters reach the destination. -/
def OStream.flush (os : OStream) : OStream :=
  { buffer := "", dest := os.dest ++ os.buffer }

/-- A `std::ofstream`: whether a file is open (`is_open()`), and the stream onto that file. -/
structure OFStream where
  is_open : Bool
  stream : OStream
  deriving DecidableEq, Repr

/-- Insertion `ofs << msg`: with no open file the insertion fails and stores nothing. -/
def OFStream.write (ofs : OFStream) (msg : String) : OFStream :=
  if ofs.is_open then { ofs with stream := ofs.stream.write msg } else ofs

/-- `std::ofstream::close()`: writes the pending characters out and closes the file; with no open
file it changes nothing in the destination. -/
def OFStream.close (ofs : OFStream) : OFStream :=
  if ofs.is_open then { is_open := false, stream := ofs.stream.flush } else ofs

/-- The two concrete sinks: `ostreamSink` (members `ostream_`, `force_flush_`) and `FileSink`
(member `ofs`). -/
inductive SinkImpl where
  | ostreamSink (ostream_ : OStream) (force_flush_ : Bool)
  | FileSink (ofs : OFStream)
  deriving DecidableEq, Repr

/-- `ostreamSink::write_impl` and `FileSink::write_impl`. -/
def SinkImpl.write_impl : SinkImpl → String → SinkImpl
  | SinkImpl.ostreamSink os ff, msg =>
      let os1 := os.write msg
      SinkImpl.ostreamSink (if ff then os1.flush else os1) ff
  | SinkImpl.FileSink ofs, msg => SinkImpl.FileSink (ofs.write msg)

/-- `ostreamSink::flush_impl` (flushes the stream) and `FileSink::flush_impl` (`ofs.close()`). -/
def SinkImpl.flush_impl : SinkImpl → SinkImpl
  | SinkImpl.ostreamSink os ff => SinkImpl.ostreamSink os.flush ff
  | SinkImpl.FileSink ofs => SinkImpl.FileSink ofs.close

/-- A `Sink` object: the base-class member `level_` and the state of the concrete sink. -/
structure Sink where
  level_ : LogLevel := LogLevel.Trace
  impl : SinkImpl
  deriving DecidableEq, Repr

/-- `Sink::set_LogLevel`. -/
def Sink.set_LogLevel (s : Sink) (level : LogLevel) : Sink :=
  { s with level_ := level }

/-- `Sink::should_log`: `return level >= level_;`. -/
def Sink.should_log (s : Sink) (level : LogLevel) : Bool :=
  decide (level ≥ s.level_)

/-- `BaseSink::write`: takes the sink's lock and calls `write_impl`. -/
def Sink.write (s : Sink) (msg : String) : Sink :=
  { s with impl := s.impl.write_impl msg }

/-- `BaseSink::flush`: takes the sink's lock and calls `flush_impl`. -/
def Sink.flush (s : Sink) : Sink :=
  { s with impl := s.impl.flush_impl }

/-! ## The heap -/

/-- A non-null `sink_ptr` (`std::shared_ptr<Sink>`): the address of a `Sink` object. -/
abbrev sink_ptr := Nat

/-- A non-null `std::shared_ptr<Logger>` or `Logger*`: the address of a `Logger` object. -/
abbrev logger_ptr := Nat

/-- The data members of `Logger` (the mutex apart). -/
structure Logger where
  sinks_ : List sink_ptr
  level_ : LogLevel := LogLevel.Error
  name_ : String
  deriving DecidableEq, Repr

/-- The data members of `LoggerRegistry` (the mutex apart): `loggers_`, a map from names to
loggers, and `default_logger_`, which may be null. -/
structure LoggerRegistry where
  loggers_ : String → Option logger_ptr
  default_logger_ : Option logger_ptr

/-- Everything the logging functions read or change.

* `sinks`, `loggers`: the objects behind the shared pointers; `next_logger` is the first address
  not yet handed out by `std::make_shared<Logger>`.
* `registry`: the singleton `LoggerRegistry::inst()`.
* `clock`, `samples`: the local time as text, `clock k` being what the `k`-th reading of the
  system clock renders to, and the number of readings made so far.
* `writes`: the calls `sink->write(text)` made so far, oldest first. -/
structure World where
  sinks : sink_ptr → Sink
  loggers : logger_ptr → Logger
  next_logger : Nat
  registry : LoggerRegistry
  clock : Nat → String
  samples : Nat
  writes : List (sink_ptr × String)

/-- The call `sink->write(msg)` on the sink at address `p`. -/
def World.sink_write (w : World) (p : sink_ptr) (msg : String) : World :=
  { w with
    sinks := Function.update w.sinks p ((w.sinks p).write msg)
    writes := w.writes ++ [(p, msg)] }

/-- The call `sink->flush()` on the sink at address `p`. -/
def World.sink_flush (w : World) (p : sink_ptr) : World :=
  { w with sinks := Function.update w.sinks p ((w.sinks p).flush) }

/-- The call `sink->set_LogLevel(level)` on the sink at address `p`. -/
def World.sink_set_LogLevel (w : World) (p : sink_ptr) (level : LogLevel) : World :=
  { w with sinks := Function.update w.sinks p ((w.sinks p).set_LogLevel level) }

/-- `std::make_shared<Logger>(...)`: a new object at a fresh address. -/
def World.make_shared (w : World) (lg : Logger) : logger_ptr × World :=
  (w.next_logger,
   { w with
     loggers := Function.update w.loggers w.next_logger lg
     next_logger := w.next_logger + 1 })

/-- `to_string(local_time(system_clock::now()))`: one reading of the clock, rendered. -/
def World.now (w : World) : String × World :=
  (w.clock w.samples, { w with samples := w.samples + 1 })

/-! ## `Logger` -/

/-- `Logger(std::string name, LogLevel level)`; an omitted `level` is `LogLevel::Error`. -/
def Logger.ctor (name : String) (level : LogLevel) : Logger :=
  { sinks_ := [], level_ := level, name_ := name }

/-- `Logger(std::string name, It begin, It end, LogLevel level)`; an omitted `level` is
`LogLevel::Error`. -/
def Logger.ctor_range (name : String) (range : List sink_ptr) (level : LogLevel) : Logger :=
  { sinks_ := range, level_ := level, name_ := name }

/-- `Logger(std::string name, sink_ptr sink, LogLevel level)`; an omitted `level` is
`LogLevel::Error`. -/
def Logger.ctor_sink (name : String) (sink : sink_ptr) (level : LogLevel) : Logger :=
  { sinks_ := [sink], level_ := level, name_ := name }

/-- `Logger::should_log`: `return level >= level_;`. -/
def Logger.should_log (lg : Logger) (level : LogLevel) : Bool :=
  decide (level ≥ lg.level_)

/-- `Logger::name`. -/
def Logger.name (lg : Logger) : String := lg.name_

/-- `Logger::add_sink` on the logger at address `self`: `sinks_.push_back(sink)`. -/
def Logger.add_sink (w : World) (self : logger_ptr) (sink : sink_ptr) : World :=
  { w with
    loggers := Function.update w.loggers self
      { w.loggers self with sinks_ := (w.loggers self).sinks_ ++ [sink] } }

/-- `Logger::remove_sink` on the logger at address `self`:
`sinks_.erase(std::ranges::find(sinks_, sink))`.  `find` yields the first element equal to
`sink`, and `erase` removes that one element.  When no element is equal, `find` yields the end
iterator, which `erase` must not be given: the behaviour is undefined, here `none`. -/
def Logger.remove_sink (w : World) (self : logger_ptr) (sink : sink_ptr) : Option World :=
  if sink ∈ (w.loggers self).sinks_ then
    some { w with
      loggers := Function.update w.loggers self
        { w.loggers self with sinks_ := (w.loggers self).sinks_.erase sink } }
  else none

/-- `Logger::set_LogLevel` on the logger at address `self`. -/
def Logger.set_LogLevel (w : World) (self : logger_ptr) (level : LogLevel) : World :=
  { w with loggers := Function.update w.loggers self { w.loggers self with level_ := level } }

/-- The text built by `std::format("[{}] ({}) {}[{}]{}: {}\n", ...)` in `Logger::log_fmt`, the six
arguments being the time, `name_`, `get_color(level)`, `to_string(level)`, `reset_color` and the
message. -/
def Logger.format (time name : String) (level : LogLevel) (msg : String) : String :=
  "[" ++ time ++ "] (" ++ name ++ ") " ++ get_color level ++ "[" ++ to_string level ++ "]"
    ++ reset_color ++ ": " ++ msg ++ "\n"

/-- The loop of `Logger::log_fmt`:
`for (auto &sink : sinks_) if (sink->should_log(level)) sink->write(formatted);`. -/
def Logger.dispatch (w : World) : List sink_ptr → LogLevel → String → World
  | [], _, _ => w
  | sink :: rest, level, formatted =>
      Logger.dispatch
        (if (w.sinks sink).should_log level then w.sink_write sink formatted else w)
        rest level formatted

/-- `Logger::log_fmt` on the logger at address `self`: format once, then offer to the sinks. -/
def Logger.log_fmt (w : World) (self : logger_ptr) (level : LogLevel) (msg : String) : World :=
  let time := w.now
  let formatted := Logger.format time.1 (w.loggers self).name_ level msg
  Logger.dispatch time.2 (w.loggers self).sinks_ level formatted

/-- `Logger::log(LogLevel lvl, std::string_view msg)` on the logger at address `self`. -/
def Logger.log (w : World) (self : logger_ptr) (lvl : LogLevel) (msg : String) : World :=
  if (w.loggers self).should_log lvl then Logger.log_fmt w self lvl msg else w

/-! ## `Logger::Stream` -/

/-- A value given to `Stream::operator<<`. -/
inductive StreamValue where
  | str (s : String)
  | int (i : Int)
  | chr (c : Char)
  deriving DecidableEq, Repr

/-- What `oss_ << value` appends for a value, with the stream's initial formatting flags:
a string as it is, an integer in decimal, a character as itself. -/
def StreamValue.text : StreamValue → String
  | StreamValue.str s => s
  | StreamValue.int i => toString i
  | StreamValue.chr c => String.singleton c

/-- The data members of `Logger::Stream`. -/
structure Stream where
  level_ : LogLevel
  oss_ : String
  logger_ : logger_ptr
  deriving DecidableEq, Repr

/-- `Logger::stream` on the logger at address `self`: `return {this, level};`. -/
def Logger.stream (self : logger_ptr) (level : LogLevel) : Stream :=
  { level_ := level, oss_ := "", logger_ := self }

/-- `Stream::operator<<(T &&value)`: `oss_ << value; return *this;`. -/
def Stream.shl (s : Stream) (value : StreamValue) : Stream :=
  { s with oss_ := s.oss_ ++ value.text }

/-- `Stream::~Stream`: `logger_->log(level_, oss_.str());`. -/
def Stream.dtor (w : World) (s : Stream) : World :=
  Logger.log w s.logger_ s.level_ s.oss_

/-! ## `LoggerRegistry` -/

/-- `LoggerRegistry::register_logger`. -/
def LoggerRegistry.register_logger (w : World) (logger : logger_ptr) : World :=
  { w with
    registry :=
      { loggers_ := Function.update w.registry.loggers_ (w.loggers logger).name (some logger)
        default_logger_ :=
          match w.registry.default_logger_ with
          | none => some logger
          | some d => some d } }

/-- `LoggerRegistry::get`: the mapped logger, or null (`none`) when `find` reaches `end()`. -/
def LoggerRegistry.get (w : World) (name : String) : Option logger_ptr :=
  w.registry.loggers_ name

/-- `LoggerRegistry::set_default_logger`; the argument may be a null pointer (`none`). -/
def LoggerRegistry.set_default_logger (w : World) (logger : Option logger_ptr) : World :=
  { w with registry := { w.registry with default_logger_ := logger } }

/-- `LoggerRegistry::default_logger`: the default when it is set, else
`std::make_shared<Logger>("default")`. -/
def LoggerRegistry.default_logger (w : World) : logger_ptr × World :=
  match w.registry.default_logger_ with
  | some d => (d, w)
  | none => w.make_shared (Logger.ctor "default" LogLevel.Error)

/-! ## Observations used in the statements -/

/-- The calls `sink->write(text)` made between the states `w` and `w1`. -/
def writes_since (w w1 : World) : List (sink_ptr × String) :=
  w1.writes.drop w.writes.length

/-- Those calls of a list that were made on the sink at address `s`. -/
def writes_to (s : sink_ptr) (l : List (sink_ptr × String)) : List String :=
  (l.filter (fun c => c.1 = s)).map Prod.snd

/-- A state with nothing in it: no logger allocated, an empty registry, no call made; every sink
address holds a fresh stream-backed sink (threshold `Trace`, as `Sink` initialises it). -/
def World.empty : World :=
  { sinks := fun _ => { level_ := LogLevel.Trace,
                        impl := SinkImpl.ostreamSink { buffer := "", dest := "" } false }
    loggers := fun _ => Logger.ctor "" LogLevel.Error
    next_logger := 0
    registry := { loggers_ := fun _ => none, default_logger_ := none }
    clock := fun _ => "2024-05-01 12:00:00 UTC"
    samples := 0
    writes := [] }

/-- The scenario of the specification: a stream sink at address `0` with threshold `Warning`, and
a logger `svc` with threshold `Info` made from that sink, at address `0`. -/
def svc_world : World :=
  ((World.empty.sink_set_LogLevel 0 LogLevel.Warning).make_shared
    (Logger.ctor_sink "svc" 0 LogLevel.Info)).2

/-- A logger `dup` with threshold `Trace`, at address `0`, to which the sink at address `0` has
been added twice and the sink at address `1` once. -/
def dup_world : World :=
  Logger.add_sink
    (Logger.add_sink
      (Logger.add_sink (World.empty.make_shared (Logger.ctor "dup" LogLevel.Trace)).2 0 0) 0 1)
    0 0

/-- A logger `two` with threshold `Trace`, at address `0`, made from the range of the sinks at
addresses `0` and `1`. -/
def two_world : World :=
  (World.empty.make_shared (Logger.ctor_range "two" [0, 1] LogLevel.Trace)).2

/-- A call made on one logger, or on a sink, by the application. -/
inductive LoggerCall where
  | log (lvl : LogLevel) (msg : String)
  | add_sink (sink : sink_ptr)
  | set_LogLevel (level : LogLevel)
  | sink_set_LogLevel (sink : sink_ptr) (level : LogLevel)
  deriving DecidableEq, Repr

/-- The effect of one such call, the logger being the one at address `self`. -/
def LoggerCall.run (w : World) (self : logger_ptr) : LoggerCall → World
  | LoggerCall.log lvl msg => Logger.log w self lvl msg
  | LoggerCall.add_sink sink => Logger.add_sink w self sink
  | LoggerCall.set_LogLevel level => Logger.set_LogLevel w self level
  | LoggerCall.sink_set_LogLevel sink level => w.sink_set_LogLevel sink level

/-- The effect of a sequence of such calls, made one after the other. -/
def Logger.run_calls (w : World) (self : logger_ptr) (calls : List LoggerCall) : World :=
  calls.foldl (fun w1 c => c.run w1 self) w

/-- A block `{ auto s = lg->stream(level); s << v1 << ... << vn; }` on the logger at address
`self`: the stream is made, the values are appended in order, and the stream is destroyed at the
end of the block. -/
def Stream.scope (w : World) (self : logger_ptr) (level : LogLevel) (values : List StreamValue) :
    World :=
  Stream.dtor w (values.foldl Stream.shl (Logger.stream self level))

/-- A call of one of the static functions of `LoggerRegistry` that can change the state. -/
inductive RegistryCall where
  | register_logger (logger : logger_ptr)
  | set_default_logger (logger : Option logger_ptr)
  | default_logger
  deriving DecidableEq, Repr

/-- The effect of one such call (the pointer `default_logger` returns is dropped). -/
def RegistryCall.run (w : World) : RegistryCall → World
  | RegistryCall.register_logger logger => LoggerRegistry.register_logger w logger
  | RegistryCall.set_default_logger logger => LoggerRegistry.set_default_logger w logger
  | RegistryCall.default_logger => (LoggerRegistry.default_logger w).2

/-- The effect of a sequence of such calls, made one after the other. -/
def LoggerRegistry.run_calls (w : World) (calls : List RegistryCall) : World :=
  calls.foldl RegistryCall.run w

/-- Every pointer the sequence hands to `register_logger` is, at the time of its call, the
address of a `Logger` object that exists (one made before the call). -/
def RegistryCall.live (w : World) : List RegistryCall → Bool
  | [] => true
  | RegistryCall.register_logger logger :: rest =>
      decide (logger < w.next_logger)
        && RegistryCall.live (LoggerRegistry.register_logger w logger) rest
  | c :: rest => RegistryCall.live (c.run w) rest

/-- The pointers returned by `k` calls of `LoggerRegistry::default_logger()` in a row, and the
state after them. -/
def LoggerRegistry.default_logger_calls : Nat → World → List logger_ptr × World
  | 0, w => ([], w)
  | k + 1, w =>
      let r := LoggerRegistry.default_logger w
      let rs := LoggerRegistry.default_logger_calls k r.2
      (r.1 :: rs.1, rs.2)

/-- Two loggers `a` and `b` made by name, at the addresses `0` and `1`; nothing registered. -/
def ab_world : World :=
  ((World.empty.make_shared (Logger.ctor "a" LogLevel.Error)).2.make_shared
    (Logger.ctor "b" LogLevel.Error)).2

/-- Two loggers of the same name `app`, at the addresses `0` (threshold `Trace`, one sink, the one
at address `0`) and `1` (threshold `Error`, no sink); nothing registered. -/
def same_name_world : World :=
  ((World.empty.make_shared (Logger.ctor_sink "app" 0 LogLevel.Trace)).2.make_shared
    (Logger.ctor "app" LogLevel.Error)).2

/-- The state `same_name_world` with a third logger, `other`, at the address `2`. -/
def three_world : World :=
  (same_name_world.make_shared (Logger.ctor "other" LogLevel.Error)).2

/-! ## Constructing loggers and sinks -/

/-- The parameter `LogLevel level = LogLevel::Error` of the three `Logger` constructors: the value
`level` has in a call that gives the argument (`some`) or leaves it out (`none`). -/
def Logger.level_arg (given : Option LogLevel) : LogLevel :=
  match given with
  | some level => level
  | none => LogLevel.Error

/-- The file a path names, as `std::ofstream` sees it: whether opening it for writing succeeds,
and the characters it holds before it is opened. -/
structure File where
  openable : Bool
  content : String
  deriving DecidableEq, Repr

/-- `std::ofstream ofs(path, mode)` with `mode` one of `std::ios::trunc` (`trunc = true`) and
`std::ios::app`: on success the file is open, emptied under `trunc` and written at its end under
`app`; on failure no file is open and the file is as it was. -/
def OFStream.open (file : File) (trunc : Bool) : OFStream :=
  if file.openable then
    { is_open := true, stream := { buffer := "", dest := if trunc then "" else file.content } }
  else
    { is_open := false, stream := { buffer := "", dest := file.content } }

/-- `FileSink(path, overwrite)`: `ofs(path, overwrite ? std::ios::trunc : std::ios::app)`, then
`if (!ofs.is_open()) std::cerr << "Failed to open log file";`.  The result is the sink (with the
`level_` that `Sink` initialises) and the characters sent to `std::cerr`.  A call that leaves
`overwrite` out has `overwrite = false`. -/
def FileSink.ctor (file : File) (overwrite : Bool) : Sink × String :=
  let ofs := OFStream.open file overwrite
  ({ level_ := LogLevel.Trace, impl := SinkImpl.FileSink ofs },
   if ofs.is_open then "" else "Failed to open log file")

/-- `ostreamSink(os, force_flush)`: the sink refers to the stream `os`.  A call that leaves
`force_flush` out has `force_flush = false`. -/
def ostreamSink.ctor (os : OStream) (force_flush : Bool) : Sink :=
  { level_ := LogLevel.Trace, impl := SinkImpl.ostreamSink os force_flush }

/-- All the characters a stream has taken, in order: those that reached the destination, then
those still buffered (what the destination holds once the buffer is written out). -/
def OStream.content (os : OStream) : String :=
  os.dest ++ os.buffer

/-- The stream of a sink: `ostream_` of an `ostreamSink`, the stream of `ofs` of a `FileSink`. -/
def Sink.stream (s : Sink) : OStream :=
  match s.impl with
  | SinkImpl.ostreamSink os _ => os
  | SinkImpl.FileSink ofs => ofs.stream

/-- Whether the stream of a sink takes characters: always for an `ostreamSink`, and for a
`FileSink` while its file is open. -/
def Sink.accepts_writes (s : Sink) : Bool :=
  match s.impl with
  | SinkImpl.ostreamSink _ _ => true
  | SinkImpl.FileSink ofs => ofs.is_open

/-- A call on a sink. -/
inductive SinkCall where
  | write (msg : String)
  | flush
  deriving DecidableEq, Repr

/-- The effect of one call on a sink. -/
def SinkCall.run (s : Sink) : SinkCall → Sink
  | SinkCall.write msg => s.write msg
  | SinkCall.flush => s.flush

/-- The effect of a sequence of calls on a sink, made one after the other. -/
def Sink.run_calls (s : Sink) (calls : List SinkCall) : Sink :=
  calls.foldl SinkCall.run s

/-! ## The free functions of `namespace logger` -/

/-- `Logger::log(LogLevel level, std::format_string<Args...> fmt, Args &&...args)` on the logger
at address `self`: `if (should_log(level)) log_fmt(level, fmt_rt(fmt, args...));`, where `fmt_rt`
returns what `std::vformat_to` produces from `fmt` and the arguments.  That library function is
the parameter `vformat`. -/
def Logger.log_format (vformat : String → List StreamValue → String) (w : World)
    (self : logger_ptr) (level : LogLevel) (fmt : String) (args : List StreamValue) : World :=
  if (w.loggers self).should_log level then Logger.log_fmt w self level (vformat fmt args) else w

/-- `logger::trace(std::string_view msg)`. -/
def logger.trace (w : World) (msg : String) : World :=
  let lg := LoggerRegistry.default_logger w
  Logger.log lg.2 lg.1 LogLevel.Trace msg

/-- `logger::debug(std::string_view msg)`. -/
def logger.debug (w : World) (msg : String) : World :=
  let lg := LoggerRegistry.default_logger w
  Logger.log lg.2 lg.1 LogLevel.Debug msg

/-- `logger::info(std::string_view msg)`. -/
def logger.info (w : World) (msg : String) : World :=
  let lg := LoggerRegistry.default_logger w
  Logger.log lg.2 lg.1 LogLevel.Info msg

/-- `logger::warning(std::string_view msg)`. -/
def logger.warning (w : World) (msg : String) : World :=
  let lg := LoggerRegistry.default_logger w
  Logger.log lg.2 lg.1 LogLevel.Warning msg

/-- `logger::error(std::string_view msg)`. -/
def logger.error (w : World) (msg : String) : World :=
  let lg := LoggerRegistry.default_logger w
  Logger.log lg.2 lg.1 LogLevel.Error msg

/-- `logger::fatal(std::string_view msg)`. -/
def logger.fatal (w : World) (msg : String) : World :=
  let lg := LoggerRegistry.default_logger w
  Logger.log lg.2 lg.1 LogLevel.Fatal msg

/-- `logger::trace(std::format_string<Args...> fmt, Args &&...args)`. -/
def logger.trace_fmt (vformat : String → List StreamValue → String) (w : World) (fmt : String)
    (args : List StreamValue) : World :=
  let lg := LoggerRegistry.default_logger w
  Logger.log_format vformat lg.2 lg.1 LogLevel.Trace fmt args

/-- `logger::debug(std::format_string<Args...> fmt, Args &&...args)`. -/
def logger.debug_fmt (vformat : String → List StreamValue → String) (w : World) (fmt : String)
    (args : List StreamValue) : World :=
  let lg := LoggerRegistry.default_logger w
  Logger.log_format vformat lg.2 lg.1 LogLevel.Debug fmt args

/-- `logger::info(std::format_string<Args...> fmt, Args &&...args)`. -/
def logger.info_fmt (vformat : String → List StreamValue → String) (w : World) (fmt : String)
    (args : List StreamValue) : World :=
  let lg := LoggerRegistry.default_logger w
  Logger.log_format vformat lg.2 lg.1 LogLevel.Info fmt args

/-- `logger::warning(std::format_string<Args...> fmt, Args &&...args)`. -/
def logger.warning_fmt (vformat : String → List StreamValue → String) (w : World) (fmt : String)
    (args : List StreamValue) : World :=
  let lg := LoggerRegistry.default_logger w
  Logger.log_format vformat lg.2 lg.1 LogLevel.Warning fmt args

/-- `logger::error(std::format_string<Args...> fmt, Args &&...args)`. -/
def logger.error_fmt (vformat : String → List StreamValue → String) (w : World) (fmt : String)
    (args : List StreamValue) : World :=
  let lg := LoggerRegistry.default_logger w
  Logger.log_format vformat lg.2 lg.1 LogLevel.Error fmt args

/-- `logger::fatal(std::format_string<Args...> fmt, Args &&...args)`. -/
def logger.fatal_fmt (vformat : String → List StreamValue → String) (w : World) (fmt : String)
    (args : List StreamValue) : World :=
  let lg := LoggerRegistry.default_logger w
  Logger.log_format vformat lg.2 lg.1 LogLevel.Fatal fmt args

/-- The statements of `main` before `logger::info("Hello world!")`: the sink at address `0` (on
`std::cout`) gets the threshold `Info`; a logger `Main Log` is made from it, at address `0`, with
no level given; it is registered; its threshold is set to `Info`. -/
def main_world : World :=
  Logger.set_LogLevel
    (LoggerRegistry.register_logger
      ((World.empty.sink_set_LogLevel 0 LogLevel.Info).make_shared
        (Logger.ctor_sink "Main Log" 0 (Logger.level_arg none))).2
      0)
    0 LogLevel.Info

/-! ## Escape sequences -/

/-- A complete ANSI SGR escape sequence: the character ESC, then `[`, then only digits and
semicolons, then a final `m`. -/
def is_sgr (s : String) : Bool :=
  match s.data with
  | esc :: bracket :: rest =>
      esc == '\x1b' && bracket == '['
        && (match rest.reverse with
            | last :: body => last == 'm' && body.all (fun c => c.isDigit || c == ';')
            | [] => false)
  | _ => false

/-! ## Lemmas on levels -/

theorem LogLevel.le_def (a b : LogLevel) : a ≤ b ↔ a.val ≤ b.val := Iff.rfl

theorem LogLevel.val_injective (a b : LogLevel) (h : a.val = b.val) : a = b := by
  cases a <;> cases b <;> first | rfl | (exact absurd h (by decide))

theorem Sink.sink_should_log_iff (s : Sink) (a : LogLevel) :
    s.should_log a = true ↔ s.level_.val ≤ a.val := by
  unfold Sink.should_log
  rw [decide_eq_true_iff]
  exact Iff.rfl

theorem Logger.logger_should_log_iff (lg : Logger) (a : LogLevel) :
    lg.should_log a = true ↔ lg.level_.val ≤ a.val := by
  unfold Logger.should_log
  rw [decide_eq_true_iff]
  exact Iff.rfl

theorem LogLevel.indexOf_all (a : LogLevel) :
    [LogLevel.None, LogLevel.Trace, LogLevel.Debug, LogLevel.Info, LogLevel.Warning,
      LogLevel.Error, LogLevel.Fatal].indexOf a = a.val := by
  cases a <;> rfl

/-! ## Lemmas on the dispatch loop -/

theorem World.sink_write_should_log (w : World) (p q : sink_ptr) (msg : String) (L : LogLevel) :
    ((w.sink_write p msg).sinks q).should_log L = (w.sinks q).should_log L := by
  unfold World.sink_write
  by_cases h : q = p
  · subst h
    simp [Function.update_same, Sink.write, Sink.should_log]
  · simp [Function.update_noteq h]

theorem Logger.dispatch_writes (sinks : List sink_ptr) (L : LogLevel) (text : String) :
    ∀ w : World, (Logger.dispatch w sinks L text).writes
      = w.writes ++ (sinks.filter (fun p => (w.sinks p).should_log L)).map (fun p => (p, text)) := by
  induction sinks with
  | nil => intro w; simp [Logger.dispatch]
  | cons p rest ih =>
    intro w
    rw [Logger.dispatch, ih]
    by_cases h : (w.sinks p).should_log L = true
    · simp only [h, if_true, List.filter_cons, World.sink_write_should_log]
      simp [World.sink_write]
    · simp only [h, List.filter_cons]
      simp

theorem Logger.dispatch_frame (sinks : List sink_ptr) (L : LogLevel) (text : String) :
    ∀ w : World, (Logger.dispatch w sinks L text).loggers = w.loggers
      ∧ (Logger.dispatch w sinks L text).registry = w.registry
      ∧ (Logger.dispatch w sinks L text).next_logger = w.next_logger
      ∧ (Logger.dispatch w sinks L text).clock = w.clock
      ∧ (Logger.dispatch w sinks L text).samples = w.samples
      ∧ ∀ q, ((Logger.dispatch w sinks L text).sinks q).level_ = (w.sinks q).level_ := by
  induction sinks with
  | nil => intro w; simp [Logger.dispatch]
  | cons p rest ih =>
    intro w
    rw [Logger.dispatch]
    obtain ⟨h1, h2, h3, h4, h5, h6⟩ := ih
      (if (w.sinks p).should_log L then w.sink_write p text else w)
    refine ⟨?_, ?_, ?_, ?_, ?_, ?_⟩
    · rw [h1]; split <;> rfl
    · rw [h2]; split <;> rfl
    · rw [h3]; split <;> rfl
    · rw [h4]; split <;> rfl
    · rw [h5]; split <;> rfl
    · intro q
      rw [h6]
      split
      · unfold World.sink_write
        by_cases h : q = p
        · subst h; simp [Function.update_same, Sink.write]
        · simp [Function.update_noteq h]
      · rfl

/-- The text `Logger::log_fmt` builds in state `w` for the logger at `self`. -/
theorem Logger.log_fmt_writes (w : World) (self : logger_ptr) (L : LogLevel) (m : String) :
    (Logger.log_fmt w self L m).writes
      = w.writes ++ ((w.loggers self).sinks_.filter (fun p => (w.sinks p).should_log L)).map
          (fun p => (p, Logger.format (w.clock w.samples) (w.loggers self).name_ L m)) := by
  unfold Logger.log_fmt
  simp only [Logger.dispatch_writes, World.now]

theorem Logger.log_writes_since (w : World) (self : logger_ptr) (L : LogLevel) (m : String) :
    writes_since w (Logger.log w self L m)
      = if (w.loggers self).should_log L then
          ((w.loggers self).sinks_.filter (fun p => (w.sinks p).should_log L)).map
            (fun p => (p, Logger.format (w.clock w.samples) (w.loggers self).name_ L m))
        else [] := by
  unfold writes_since Logger.log
  split
  · rw [Logger.log_fmt_writes]; simp
  · simp

theorem Logger.log_frame (w : World) (self : logger_ptr) (L : LogLevel) (m : String) :
    (Logger.log w self L m).loggers = w.loggers
      ∧ (Logger.log w self L m).registry = w.registry
      ∧ (Logger.log w self L m).next_logger = w.next_logger
      ∧ (Logger.log w self L m).clock = w.clock
      ∧ ∀ q, ((Logger.log w self L m).sinks q).level_ = (w.sinks q).level_ := by
  unfold Logger.log
  split
  · unfold Logger.log_fmt
    obtain ⟨h1, h2, h3, h4, _, h6⟩ := Logger.dispatch_frame (w.loggers self).sinks_ L
      (Logger.format w.now.1 (w.loggers self).name_ L m) w.now.2
    exact ⟨h1, h2, h3, h4, h6⟩
  · exact ⟨rfl, rfl, rfl, rfl, fun _ => rfl⟩

theorem writes_to_map (s : sink_ptr) (l : List sink_ptr) (text : String) :
    writes_to s (l.map (fun p => (p, text))) = List.replicate (l.count s) text := by
  induction l with
  | nil => rfl
  | cons p rest ih =>
    unfold writes_to at ih ⊢
    by_cases h : p = s
    · subst h
      simp [List.filter_cons, List.replicate_succ, ih]
    · have h2 : ¬ (p == s) = true := by simpa using h
      simp [List.filter_cons, h, List.count_cons, h2, ih]

/-! ## Level gating -/

/-- C1: a logger with threshold `T` holding a sink with threshold `U`: `Logger::log(S, m)` calls
`write` on that sink if and only if `S >= T` and `S >= U`. -/
theorem C1_log_reaches_sink_iff (w : World) (self : logger_ptr) (s : sink_ptr)
    (T U S : LogLevel) (m : String)
    (hT : (w.loggers self).level_ = T) (hU : (w.sinks s).level_ = U)
    (hs : s ∈ (w.loggers self).sinks_) :
    writes_to s (writes_since w (Logger.log w self S m)) ≠ [] ↔ (S ≥ T ∧ S ≥ U) := by
  rw [Logger.log_writes_since]
  subst hT hU
  by_cases h1 : (w.loggers self).should_log S = true
  · rw [if_pos h1, writes_to_map]
    have hT : S ≥ (w.loggers self).level_ := (Logger.logger_should_log_iff _ _).1 h1
    by_cases h2 : (w.sinks s).should_log S = true
    · have hU : S ≥ (w.sinks s).level_ := (Sink.sink_should_log_iff _ _).1 h2
      have hmem : s ∈ (w.loggers self).sinks_.filter (fun p => (w.sinks p).should_log S) :=
        List.mem_filter.2 ⟨hs, h2⟩
      have hpos : 0 < List.count s
          ((w.loggers self).sinks_.filter (fun p => (w.sinks p).should_log S)) :=
        List.count_pos_iff.2 hmem
      constructor
      · intro _; exact ⟨hT, hU⟩
      · intro _ hnil
        have hlen := congrArg List.length hnil
        simp at hlen
        omega
    · constructor
      · intro hne
        exfalso
        apply hne
        have hnot : s ∉ (w.loggers self).sinks_.filter (fun p => (w.sinks p).should_log S) :=
          fun hm => h2 (List.mem_filter.1 hm).2
        rw [List.count_eq_zero_of_not_mem hnot]
        rfl
      · intro hTU
        exact absurd ((Sink.sink_should_log_iff _ _).2 hTU.2) h2
  · rw [if_neg h1]
    constructor
    · intro hne; exact absurd rfl hne
    · intro hTU
      exact absurd ((Logger.logger_should_log_iff _ _).2 hTU.1) h1

/-- The scenario of C1: logger `svc` at `Info` with one sink at `Warning`; `log(Info, "starting")`
makes no call, `log(Error, "failed: disk full")` makes exactly one, of one line. -/
theorem C1_log_reaches_sink_iff_witness :
    (svc_world.loggers 0).name = "svc"
      ∧ (svc_world.loggers 0).sinks_ = [0]
      ∧ writes_since svc_world (Logger.log svc_world 0 LogLevel.Info "starting") = []
      ∧ writes_since svc_world (Logger.log svc_world 0 LogLevel.Error "failed: disk full")
          = [(0, "[2024-05-01 12:00:00 UTC] (svc) \x1b[31m[Error]\x1b[0m: failed: disk full\n")]
      ∧ (writes_to 0 (writes_since svc_world (Logger.log svc_world 0 LogLevel.Info "starting"))
            ≠ [] ↔ (LogLevel.Info ≥ LogLevel.Info ∧ LogLevel.Info ≥ LogLevel.Warning))
      ∧ (writes_to 0
            (writes_since svc_world (Logger.log svc_world 0 LogLevel.Error "failed: disk full"))
            ≠ [] ↔ (LogLevel.Error ≥ LogLevel.Info ∧ LogLevel.Error ≥ LogLevel.Warning)) :=
  ⟨by decide, by decide, by decide, by decide,
   C1_log_reaches_sink_iff svc_world 0 0 LogLevel.Info LogLevel.Warning LogLevel.Info "starting"
     (by decide) (by decide) (by decide),
   C1_log_reaches_sink_iff svc_world 0 0 LogLevel.Info LogLevel.Warning LogLevel.Error
     "failed: disk full" (by decide) (by decide) (by decide)⟩

/-- C4: both `should_log` functions accept candidate `a` against threshold `b` exactly when `a`
stands at or after `b` in the list None, Trace, Debug, Info, Warning, Error, Fatal, and the
acceptance relation is reflexive, antisymmetric, transitive and total. -/
theorem C4_should_log_total_order :
    (∀ (s : Sink) (a : LogLevel), s.should_log a = true ↔
        [LogLevel.None, LogLevel.Trace, LogLevel.Debug, LogLevel.Info, LogLevel.Warning,
          LogLevel.Error, LogLevel.Fatal].indexOf s.level_
        ≤ [LogLevel.None, LogLevel.Trace, LogLevel.Debug, LogLevel.Info, LogLevel.Warning,
          LogLevel.Error, LogLevel.Fatal].indexOf a)
    ∧ (∀ (lg : Logger) (a : LogLevel), lg.should_log a = true ↔
        [LogLevel.None, LogLevel.Trace, LogLevel.Debug, LogLevel.Info, LogLevel.Warning,
          LogLevel.Error, LogLevel.Fatal].indexOf lg.level_
        ≤ [LogLevel.None, LogLevel.Trace, LogLevel.Debug, LogLevel.Info, LogLevel.Warning,
          LogLevel.Error, LogLevel.Fatal].indexOf a)
    ∧ (∀ (s : Sink) (lg : Logger) (a : LogLevel),
        s.level_ = lg.level_ → s.should_log a = lg.should_log a)
    ∧ (∀ s : Sink, s.should_log s.level_ = true)
    ∧ (∀ s t : Sink, s.should_log t.level_ = true → t.should_log s.level_ = true
        → s.level_ = t.level_)
    ∧ (∀ (s t : Sink) (c : LogLevel), s.should_log t.level_ = true → t.should_log c = true
        → s.should_log c = true)
    ∧ (∀ s t : Sink, s.should_log t.level_ = true ∨ t.should_log s.level_ = true)
    ∧ (∀ a b : LogLevel, a ≥ b ↔ (a = b ∨
        [LogLevel.None, LogLevel.Trace, LogLevel.Debug, LogLevel.Info, LogLevel.Warning,
          LogLevel.Error, LogLevel.Fatal].indexOf b
        < [LogLevel.None, LogLevel.Trace, LogLevel.Debug, LogLevel.Info, LogLevel.Warning,
          LogLevel.Error, LogLevel.Fatal].indexOf a)) := by
  refine ⟨?_, ?_, ?_, ?_, ?_, ?_, ?_, ?_⟩
  · intro s a
    rw [Sink.sink_should_log_iff, LogLevel.indexOf_all, LogLevel.indexOf_all]
  · intro lg a
    rw [Logger.logger_should_log_iff, LogLevel.indexOf_all, LogLevel.indexOf_all]
  · intro s lg a h
    unfold Sink.should_log Logger.should_log
    rw [h]
  · intro s
    exact (Sink.sink_should_log_iff _ _).2 (Nat.le_refl _)
  · intro s t h1 h2
    rw [Sink.sink_should_log_iff] at h1 h2
    exact LogLevel.val_injective _ _ (Nat.le_antisymm h1 h2)
  · intro s t c h1 h2
    rw [Sink.sink_should_log_iff] at h1 h2 ⊢
    exact Nat.le_trans h1 h2
  · intro s t
    rw [Sink.sink_should_log_iff, Sink.sink_should_log_iff]
    exact Nat.le_total _ _
  · intro a b
    rw [LogLevel.indexOf_all, LogLevel.indexOf_all]
    constructor
    · intro h
      have h1 : b.val ≤ a.val := h
      rcases Nat.eq_or_lt_of_le h1 with h2 | h2
      · exact Or.inl (LogLevel.val_injective _ _ h2.symm)
      · exact Or.inr h2
    · intro h
      rcases h with h | h
      · subst h; exact Nat.le_refl _
      · exact Nat.le_of_lt h

/-! ## The record and its delivery -/

/-- C2, as stated, fails: in the scenario `svc` the one record written by
`log(Error, "failed: disk full")` has the level name in square brackets, so it differs from the
text with the level name directly between the colour code and the reset code. -/
theorem C2_record_text_counterexample :
    writes_to 0
        (writes_since svc_world (Logger.log svc_world 0 LogLevel.Error "failed: disk full"))
      = ["[2024-05-01 12:00:00 UTC] (svc) \x1b[31m[Error]\x1b[0m: failed: disk full\n"]
    ∧ "[2024-05-01 12:00:00 UTC] (svc) \x1b[31m[Error]\x1b[0m: failed: disk full\n"
      ≠ "[" ++ svc_world.clock svc_world.samples ++ "] (" ++ (svc_world.loggers 0).name ++ ") "
          ++ get_color LogLevel.Error ++ to_string LogLevel.Error ++ reset_color ++ ": "
          ++ "failed: disk full" ++ "\n" := by
  decide

/-- C2, amended: every record `Logger::log(L, m)` writes is the text
`"[" + ts + "] (" + n + ") " + color(L) + "[" + levelName(L) + "]" + reset + ": " + m + "\n"`,
the level name standing in square brackets between the colour code and the reset code; and a sink
of the logger that passes `L`, under a logger that passes `L`, is written that text. -/
theorem C2_record_text (w : World) (self : logger_ptr) (s : sink_ptr) (L : LogLevel) (m : String)
    (hT : (w.loggers self).should_log L = true) (hs : s ∈ (w.loggers self).sinks_)
    (hU : (w.sinks s).should_log L = true) :
    (∀ (q : sink_ptr) (text : String),
        text ∈ writes_to q (writes_since w (Logger.log w self L m)) →
        text = "[" ++ w.clock w.samples ++ "] (" ++ (w.loggers self).name ++ ") " ++ get_color L
          ++ "[" ++ to_string L ++ "]" ++ reset_color ++ ": " ++ m ++ "\n")
    ∧ ("[" ++ w.clock w.samples ++ "] (" ++ (w.loggers self).name ++ ") " ++ get_color L
          ++ "[" ++ to_string L ++ "]" ++ reset_color ++ ": " ++ m ++ "\n")
        ∈ writes_to s (writes_since w (Logger.log w self L m)) := by
  rw [Logger.log_writes_since, if_pos hT]
  constructor
  · intro q text hmem
    rw [writes_to_map] at hmem
    exact List.eq_of_mem_replicate hmem
  · rw [writes_to_map]
    have hmem : s ∈ (w.loggers self).sinks_.filter (fun p => (w.sinks p).should_log L) :=
      List.mem_filter.2 ⟨hs, hU⟩
    have hpos := List.count_pos_iff.2 hmem
    rw [List.mem_replicate]
    exact ⟨by omega, rfl⟩

/-- C2 at the scenario `svc`: the record of `log(Error, "failed: disk full")`. -/
theorem C2_record_text_witness :
    (svc_world.loggers 0).should_log LogLevel.Error = true
    ∧ (0 : sink_ptr) ∈ (svc_world.loggers 0).sinks_
    ∧ (svc_world.sinks 0).should_log LogLevel.Error = true
    ∧ ("[" ++ svc_world.clock svc_world.samples ++ "] (" ++ (svc_world.loggers 0).name ++ ") "
          ++ get_color LogLevel.Error ++ "[" ++ to_string LogLevel.Error ++ "]" ++ reset_color
          ++ ": " ++ "failed: disk full" ++ "\n")
        ∈ writes_to 0
            (writes_since svc_world
              (Logger.log svc_world 0 LogLevel.Error "failed: disk full")) :=
  ⟨by decide, by decide, by decide,
   (C2_record_text svc_world 0 0 LogLevel.Error "failed: disk full"
     (by decide) (by decide) (by decide)).2⟩

theorem count_filter_should_log (w : World) (l : List sink_ptr) (L : LogLevel) (s : sink_ptr) :
    List.count s (l.filter (fun p => (w.sinks p).should_log L))
      = if (w.sinks s).should_log L = true then List.count s l else 0 := by
  split
  · rename_i h
    exact List.count_filter h
  · rename_i h
    apply List.count_eq_zero_of_not_mem
    intro hm
    exact h (List.mem_filter.1 hm).2

/-- C3, as stated, fails: the logger `dup` passes `Error`, holds the sink at address `0`, which
passes `Error` too, and one call `log(Error, "m")` writes to that sink twice. -/
theorem C3_one_write_per_sink_counterexample :
    (dup_world.loggers 0).should_log LogLevel.Error = true
    ∧ (0 : sink_ptr) ∈ (dup_world.loggers 0).sinks_
    ∧ (dup_world.sinks 0).should_log LogLevel.Error = true
    ∧ (writes_to 0
        (writes_since dup_world (Logger.log dup_world 0 LogLevel.Error "m"))).length = 2 := by
  decide

/-- C3, amended: when the logger passes `L`, one call `log(L, m)` makes exactly one write per
entry of the sink sequence whose sink passes `L`, in the order of the sequence and each with the
same text, formatted from one reading of the clock; so a sink that passes `L` and stands `k`
times in the sequence is written `k` times, once when the sequence has no repetition, and every
other sink is not written. -/
theorem C3_one_write_per_attachment (w : World) (self : logger_ptr) (L : LogLevel) (m : String)
    (hT : (w.loggers self).should_log L = true) :
    writes_since w (Logger.log w self L m)
      = ((w.loggers self).sinks_.filter (fun p => (w.sinks p).should_log L)).map
          (fun p => (p, Logger.format (w.clock w.samples) (w.loggers self).name L m))
    ∧ (∀ s : sink_ptr, writes_to s (writes_since w (Logger.log w self L m))
        = List.replicate
            (if (w.sinks s).should_log L = true then (w.loggers self).sinks_.count s else 0)
            (Logger.format (w.clock w.samples) (w.loggers self).name L m))
    ∧ ((w.loggers self).sinks_.Nodup → ∀ s ∈ (w.loggers self).sinks_,
        (w.sinks s).should_log L = true →
        writes_to s (writes_since w (Logger.log w self L m))
          = [Logger.format (w.clock w.samples) (w.loggers self).name L m])
    ∧ (Logger.log w self L m).samples = w.samples + 1 := by
  have hw := Logger.log_writes_since w self L m
  rw [if_pos hT] at hw
  have hcount : ∀ s : sink_ptr, writes_to s (writes_since w (Logger.log w self L m))
        = List.replicate
            (if (w.sinks s).should_log L = true then (w.loggers self).sinks_.count s else 0)
            (Logger.format (w.clock w.samples) (w.loggers self).name L m) := by
    intro s
    rw [hw, writes_to_map, count_filter_should_log]
    rfl
  refine ⟨hw, hcount, ?_, ?_⟩
  · intro hnd s hs hU
    rw [hcount s, if_pos hU, List.count_eq_one_of_mem hnd hs]
    rfl
  · unfold Logger.log
    rw [if_pos hT]
    unfold Logger.log_fmt
    rw [(Logger.dispatch_frame _ _ _ _).2.2.2.2.1]
    rfl

/-- C3 at the logger `dup`, whose sink sequence is the addresses 0, 1, 0. -/
theorem C3_one_write_per_attachment_witness :
    (dup_world.loggers 0).should_log LogLevel.Error = true
    ∧ (dup_world.loggers 0).sinks_ = [0, 1, 0]
    ∧ writes_since dup_world (Logger.log dup_world 0 LogLevel.Error "m")
      = [(0, "[2024-05-01 12:00:00 UTC] (dup) \x1b[31m[Error]\x1b[0m: m\n"),
         (1, "[2024-05-01 12:00:00 UTC] (dup) \x1b[31m[Error]\x1b[0m: m\n"),
         (0, "[2024-05-01 12:00:00 UTC] (dup) \x1b[31m[Error]\x1b[0m: m\n")]
    ∧ (Logger.log dup_world 0 LogLevel.Error "m").samples = dup_world.samples + 1 :=
  ⟨by decide, by decide,
   (C3_one_write_per_attachment dup_world 0 LogLevel.Error "m" (by decide)).1.trans (by decide),
   (C3_one_write_per_attachment dup_world 0 LogLevel.Error "m" (by decide)).2.2.2⟩

/-! ## Removing a sink -/

theorem Logger.log_writes (w : World) (self : logger_ptr) (L : LogLevel) (m : String) :
    (Logger.log w self L m).writes
      = w.writes ++ (if (w.loggers self).should_log L then
          ((w.loggers self).sinks_.filter (fun p => (w.sinks p).should_log L)).map
            (fun p => (p, Logger.format (w.clock w.samples) (w.loggers self).name_ L m))
        else []) := by
  unfold Logger.log
  split
  · rw [Logger.log_fmt_writes]
  · simp

theorem writes_since_append (w w1 : World) (d : List (sink_ptr × String))
    (h : w1.writes = w.writes ++ d) : writes_since w w1 = d := by
  unfold writes_since
  rw [h]
  exact List.drop_left _ _

theorem writes_to_append (s : sink_ptr) (a b : List (sink_ptr × String)) :
    writes_to s (a ++ b) = writes_to s a ++ writes_to s b := by
  unfold writes_to
  simp

theorem writes_to_absent (s : sink_ptr) (l : List sink_ptr) (text : String) (h : s ∉ l) :
    writes_to s (l.map (fun p => (p, text))) = [] := by
  rw [writes_to_map, List.count_eq_zero_of_not_mem h]
  rfl

theorem erase_eq_filter_of_count_one (s : sink_ptr) :
    ∀ l : List sink_ptr, l.count s = 1 → l.erase s = l.filter (fun p => decide (p ≠ s)) := by
  intro l
  induction l with
  | nil => intro h; simp at h
  | cons a t ih =>
    intro h
    by_cases ha : a = s
    · subst ha
      have h0 : t.count a = 0 := by
        rw [List.count_cons_self] at h
        omega
      have hnot : a ∉ t := List.count_eq_zero.1 h0
      rw [List.erase_cons_head, List.filter_cons]
      simp only [ne_eq, not_true_eq_false, decide_False, Bool.false_eq_true, if_false]
      symm
      rw [List.filter_eq_self]
      intro b hb
      have hne : b ≠ a := fun e => hnot (e ▸ hb)
      simpa using hne
    · have h1 : t.count s = 1 := by
        rw [List.count_cons_of_ne (Ne.symm ha)] at h
        exact h
      have hbeq : (a == s) = false := by simpa using ha
      rw [List.erase_cons_tail (by simp [hbeq]), List.filter_cons, ih h1]
      simp [ha]

/-- Calls other than `add_sink(s)` on a logger that does not hold `s` never write to `s`, and
leave the logger without `s`. -/
theorem Logger.run_calls_absent (self : logger_ptr) (s : sink_ptr) :
    ∀ (calls : List LoggerCall) (w : World), s ∉ (w.loggers self).sinks_ →
      LoggerCall.add_sink s ∉ calls →
      s ∉ ((Logger.run_calls w self calls).loggers self).sinks_
      ∧ ∃ d, (Logger.run_calls w self calls).writes = w.writes ++ d ∧ writes_to s d = [] := by
  intro calls
  induction calls with
  | nil =>
    intro w h _
    exact ⟨h, [], by simp [Logger.run_calls], rfl⟩
  | cons c rest ih =>
    intro w h hc
    have hrest : LoggerCall.add_sink s ∉ rest := fun hm => hc (List.mem_cons_of_mem _ hm)
    have hhead : c ≠ LoggerCall.add_sink s := fun e => hc (e ▸ List.mem_cons_self _ _)
    have step : s ∉ ((c.run w self).loggers self).sinks_
        ∧ ∃ d, (c.run w self).writes = w.writes ++ d ∧ writes_to s d = [] := by
      cases c with
      | log lvl msg =>
        refine ⟨?_, ?_⟩
        · show s ∉ ((Logger.log w self lvl msg).loggers self).sinks_
          rw [(Logger.log_frame w self lvl msg).1]
          exact h
        · refine ⟨_, Logger.log_writes w self lvl msg, ?_⟩
          split
          · exact writes_to_absent s _ _ (fun hm => h (List.mem_filter.1 hm).1)
          · rfl
      | add_sink sink =>
        have hne : s ≠ sink := fun e => hhead (e ▸ rfl)
        refine ⟨?_, [], by simp [LoggerCall.run, Logger.add_sink], rfl⟩
        simp only [LoggerCall.run, Logger.add_sink, Function.update_same, List.mem_append,
          List.mem_singleton, not_or]
        exact ⟨h, hne⟩
      | set_LogLevel level =>
        refine ⟨?_, [], by simp [LoggerCall.run, Logger.set_LogLevel], rfl⟩
        simp only [LoggerCall.run, Logger.set_LogLevel, Function.update_same]
        exact h
      | sink_set_LogLevel sink level =>
        exact ⟨h, [], by simp [LoggerCall.run, World.sink_set_LogLevel], rfl⟩
    obtain ⟨h1, d1, hd1, hz1⟩ := step
    obtain ⟨h2, d2, hd2, hz2⟩ := ih (c.run w self) h1 hrest
    refine ⟨h2, d1 ++ d2, ?_, ?_⟩
    · show (Logger.run_calls (c.run w self) self rest).writes = _
      rw [hd2, hd1, List.append_assoc]
    · rw [writes_to_append, hz1, hz2]
      rfl

/-- C5, as stated, fails: the sink at address `0` was added twice to the logger `dup`; after
`remove_sink` of it returns, `log(Error, "m")` on that logger still writes to it. -/
theorem C5_remove_sink_counterexample :
    (Logger.remove_sink dup_world 0 0).map
        (fun w1 => writes_to 0 (writes_since w1 (Logger.log w1 0 LogLevel.Error "m")))
      = some ["[2024-05-01 12:00:00 UTC] (dup) \x1b[31m[Error]\x1b[0m: m\n"] := by
  decide

theorem Logger.remove_sink_effect (w : World) (self : logger_ptr) (s : sink_ptr)
    (hs : s ∈ (w.loggers self).sinks_) :
    ∃ w1, Logger.remove_sink w self s = some w1
      ∧ (w1.loggers self).sinks_ = (w.loggers self).sinks_.erase s
      ∧ (w1.loggers self).level_ = (w.loggers self).level_
      ∧ (w1.loggers self).name_ = (w.loggers self).name_
      ∧ w1.sinks = w.sinks ∧ w1.clock = w.clock ∧ w1.samples = w.samples
      ∧ w1.writes = w.writes := by
  refine ⟨{ w with
      loggers := Function.update w.loggers self
        { w.loggers self with sinks_ := (w.loggers self).sinks_.erase s } },
    by unfold Logger.remove_sink; rw [if_pos hs], ?_, ?_, ?_, rfl, rfl, rfl, rfl⟩
  · show (Function.update w.loggers self _ self).sinks_ = _
    rw [Function.update_same]
  · show (Function.update w.loggers self _ self).level_ = _
    rw [Function.update_same]
  · show (Function.update w.loggers self _ self).name_ = _
    rw [Function.update_same]

/-- C5, amended: `remove_sink(s)` on a logger that holds `s` removes the first entry equal to `s`
from the sink sequence and nothing else.  When `s` stood exactly once in the sequence, the
sequence afterwards is the old one without `s`, the other sinks in their previous order; no later
call on that logger (`log` at any level with any message, `add_sink` of another sink, a change of
a threshold) writes to `s`; and each later `log` writes what it would have written before the
removal, less the writes to `s`. -/
theorem C5_remove_sink (w : World) (self : logger_ptr) (s : sink_ptr)
    (hs : s ∈ (w.loggers self).sinks_) :
    ∃ w1, Logger.remove_sink w self s = some w1
      ∧ (w1.loggers self).sinks_ = (w.loggers self).sinks_.erase s
      ∧ ((w.loggers self).sinks_.count s = 1 →
          (w1.loggers self).sinks_ = (w.loggers self).sinks_.filter (fun p => decide (p ≠ s))
          ∧ (∀ calls : List LoggerCall, LoggerCall.add_sink s ∉ calls →
              writes_to s (writes_since w1 (Logger.run_calls w1 self calls)) = [])
          ∧ (∀ (L : LogLevel) (m : String),
              writes_since w1 (Logger.log w1 self L m)
                = (writes_since w (Logger.log w self L m)).filter
                    (fun c => decide (c.1 ≠ s)))) := by
  obtain ⟨w1, hrm, hsk, hlv, hnm, hsinks1, hclock, hsamples, _⟩ :=
    Logger.remove_sink_effect w self s hs
  refine ⟨w1, hrm, hsk, ?_⟩
  intro hcount
  have hsinks := erase_eq_filter_of_count_one s _ hcount
  have hnot : s ∉ (w1.loggers self).sinks_ := by
    rw [hsk, hsinks]
    intro hm
    have := (List.mem_filter.1 hm).2
    simp at this
  refine ⟨hsk.trans hsinks, ?_, ?_⟩
  · intro calls hcalls
    obtain ⟨_, d, hd, hz⟩ := Logger.run_calls_absent self s calls w1 hnot hcalls
    rw [writes_since_append _ _ d hd]
    exact hz
  · intro L m
    rw [Logger.log_writes_since, Logger.log_writes_since]
    have hsl : (w1.loggers self).should_log L = (w.loggers self).should_log L := by
      unfold Logger.should_log
      rw [hlv]
    rw [hsl, hsk, hsinks, hnm, hsinks1, hclock, hsamples]
    by_cases hT : (w.loggers self).should_log L = true
    · rw [if_pos hT, if_pos hT]
      simp only [List.filter_map, List.filter_filter]
      congr 1
      apply List.filter_congr
      intro p _
      simp [Bool.and_comm]
    · rw [if_neg hT, if_neg hT]
      rfl

/-- C5 at the logger `two`, whose sink sequence is the addresses 0, 1: after `remove_sink` of the
sink at `0` the sequence is the address 1, and a later `log` writes to the sink at `1` only. -/
theorem C5_remove_sink_witness :
    (0 : sink_ptr) ∈ (two_world.loggers 0).sinks_
    ∧ (∃ w1, Logger.remove_sink two_world 0 0 = some w1
        ∧ (w1.loggers 0).sinks_ = (two_world.loggers 0).sinks_.erase 0)
    ∧ (Logger.remove_sink two_world 0 0).map
        (fun w1 => ((w1.loggers 0).sinks_,
          writes_since w1 (Logger.log w1 0 LogLevel.Error "m")))
      = some ([1], [(1, "[2024-05-01 12:00:00 UTC] (two) \x1b[31m[Error]\x1b[0m: m\n")]) :=
  ⟨by decide,
   (C5_remove_sink two_world 0 0 (by decide)).imp (fun _ h => ⟨h.1, h.2.1⟩),
   by decide⟩

/-! ## `Logger::Stream` -/

theorem foldl_append_init (l : List String) :
    ∀ init : String, l.foldl (fun r s => r ++ s) init
      = init ++ l.foldl (fun r s => r ++ s) "" := by
  induction l with
  | nil => intro init; simp
  | cons a t ih =>
    intro init
    rw [List.foldl_cons, List.foldl_cons, ih (init ++ a), ih ("" ++ a), String.empty_append,
      String.append_assoc]

theorem string_join_cons (a : String) (l : List String) :
    String.join (a :: l) = a ++ String.join l := by
  unfold String.join
  rw [List.foldl_cons, foldl_append_init, String.empty_append]

theorem Stream.foldl_shl (values : List StreamValue) :
    ∀ s : Stream, (values.foldl Stream.shl s).level_ = s.level_
      ∧ (values.foldl Stream.shl s).logger_ = s.logger_
      ∧ (values.foldl Stream.shl s).oss_
          = s.oss_ ++ String.join (values.map StreamValue.text) := by
  induction values with
  | nil =>
    intro s
    refine ⟨rfl, rfl, ?_⟩
    simp [String.join]
  | cons v rest ih =>
    intro s
    obtain ⟨h1, h2, h3⟩ := ih (s.shl v)
    refine ⟨h1, h2, ?_⟩
    rw [List.foldl_cons, h3]
    show s.oss_ ++ v.text ++ String.join (rest.map StreamValue.text)
      = s.oss_ ++ String.join ((v :: rest).map StreamValue.text)
    rw [List.map_cons, string_join_cons, String.append_assoc]

/-- C6: a stream obtained from `stream(L)`, given the values `v1..vn` and then destroyed, has
exactly the effect of the one call `log(L, text(v1) + ... + text(vn))` on its logger (so nothing
is written before the destruction); the values `"x="`, `5`, `", ok"` give one record, of message
`x=5, ok`. -/
theorem C6_stream_is_one_log :
    (∀ (w : World) (self : logger_ptr) (L : LogLevel) (values : List StreamValue),
        Stream.scope w self L values
          = Logger.log w self L (String.join (values.map StreamValue.text)))
    ∧ (∀ (w : World) (self : logger_ptr) (L : LogLevel),
        Stream.scope w self L
            [StreamValue.str "x=", StreamValue.int 5, StreamValue.str ", ok"]
          = Logger.log w self L "x=5, ok")
    ∧ writes_since svc_world
        (Stream.scope svc_world 0 LogLevel.Error
          [StreamValue.str "x=", StreamValue.int 5, StreamValue.str ", ok"])
      = [(0, "[2024-05-01 12:00:00 UTC] (svc) \x1b[31m[Error]\x1b[0m: x=5, ok\n")] := by
  have h : ∀ (w : World) (self : logger_ptr) (L : LogLevel) (values : List StreamValue),
      Stream.scope w self L values
        = Logger.log w self L (String.join (values.map StreamValue.text)) := by
    intro w self L values
    obtain ⟨h1, h2, h3⟩ := Stream.foldl_shl values (Logger.stream self L)
    unfold Stream.scope Stream.dtor
    rw [h1, h2, h3]
    show Logger.log w self L ("" ++ _) = _
    rw [String.empty_append]
  refine ⟨h, ?_, by decide⟩
  intro w self L
  rw [h]
  rfl

/-! ## `LoggerRegistry` -/

/-- C7: two distinct loggers `a` and `b` of one name: after `register_logger(a)` then
`register_logger(b)`, `get` of that name returns `b` and not `a` (it returned `a` in between);
no logger object and no sink is changed by the two registrations, and `a` still writes, through
its address, what it wrote before. -/
theorem C7_last_registration_wins (w : World) (a b : logger_ptr)
    (hname : (w.loggers a).name = (w.loggers b).name) (hne : a ≠ b) :
    LoggerRegistry.get (LoggerRegistry.register_logger w a) (w.loggers a).name = some a
    ∧ LoggerRegistry.get
        (LoggerRegistry.register_logger (LoggerRegistry.register_logger w a) b)
        (w.loggers a).name = some b
    ∧ LoggerRegistry.get
        (LoggerRegistry.register_logger (LoggerRegistry.register_logger w a) b)
        (w.loggers a).name ≠ some a
    ∧ (LoggerRegistry.register_logger (LoggerRegistry.register_logger w a) b).loggers
        = w.loggers
    ∧ (LoggerRegistry.register_logger (LoggerRegistry.register_logger w a) b).sinks = w.sinks
    ∧ (∀ (L : LogLevel) (m : String),
        writes_since (LoggerRegistry.register_logger (LoggerRegistry.register_logger w a) b)
            (Logger.log
              (LoggerRegistry.register_logger (LoggerRegistry.register_logger w a) b) a L m)
          = writes_since w (Logger.log w a L m)) := by
  have hb : LoggerRegistry.get
        (LoggerRegistry.register_logger (LoggerRegistry.register_logger w a) b)
        (w.loggers a).name = some b := by
    simp only [LoggerRegistry.get, LoggerRegistry.register_logger, hname, Function.update_same]
  refine ⟨?_, hb, ?_, rfl, rfl, ?_⟩
  · simp only [LoggerRegistry.get, LoggerRegistry.register_logger, Function.update_same]
  · rw [hb]
    intro h
    exact hne (Option.some.inj h).symm
  · intro L m
    rw [Logger.log_writes_since, Logger.log_writes_since]
    rfl

/-- C7 at two loggers named `app`: `get("app")` gives the second, at address `1`, and the first,
at address `0`, still writes to its sink. -/
theorem C7_last_registration_wins_witness :
    (same_name_world.loggers 0).name = (same_name_world.loggers 1).name
    ∧ LoggerRegistry.get
        (LoggerRegistry.register_logger (LoggerRegistry.register_logger same_name_world 0) 1)
        "app" = some 1
    ∧ writes_since
          (LoggerRegistry.register_logger (LoggerRegistry.register_logger same_name_world 0) 1)
          (Logger.log
            (LoggerRegistry.register_logger (LoggerRegistry.register_logger same_name_world 0) 1)
            0 LogLevel.Info "still here")
        = [(0, "[2024-05-01 12:00:00 UTC] (app) \x1b[37m[Info]\x1b[0m: still here\n")] :=
  ⟨by decide,
   (C7_last_registration_wins same_name_world 0 1 (by decide) (by decide)).2.1,
   ((C7_last_registration_wins same_name_world 0 1 (by decide) (by decide)).2.2.2.2.2
      LogLevel.Info "still here").trans (by decide)⟩

theorem LoggerRegistry.register_logger_default_some (w : World) (b d : logger_ptr)
    (h : w.registry.default_logger_ = some d) :
    (LoggerRegistry.register_logger w b).registry.default_logger_ = some d := by
  unfold LoggerRegistry.register_logger
  simp only [h]

theorem LoggerRegistry.foldl_register_default_some (bs : List logger_ptr) :
    ∀ (w : World) (d : logger_ptr), w.registry.default_logger_ = some d →
      (bs.foldl LoggerRegistry.register_logger w).registry.default_logger_ = some d := by
  induction bs with
  | nil => intro w d h; exact h
  | cons b rest ih =>
    intro w d h
    exact ih _ d (LoggerRegistry.register_logger_default_some w b d h)

theorem LoggerRegistry.default_logger_of_some (w : World) (d : logger_ptr)
    (h : w.registry.default_logger_ = some d) : LoggerRegistry.default_logger w = (d, w) := by
  unfold LoggerRegistry.default_logger
  rw [h]

/-- C9: with no default set, `register_logger(a)` makes `a` the default; after any further
`register_logger` calls, of loggers of the same name as `a` or of another, `default_logger()`
still returns `a` (and makes no new logger). -/
theorem C9_first_registered_is_default (w : World) (a : logger_ptr) (bs : List logger_ptr)
    (h : w.registry.default_logger_ = none) :
    LoggerRegistry.default_logger (LoggerRegistry.register_logger w a)
      = (a, LoggerRegistry.register_logger w a)
    ∧ LoggerRegistry.default_logger
        (bs.foldl LoggerRegistry.register_logger (LoggerRegistry.register_logger w a))
      = (a, bs.foldl LoggerRegistry.register_logger (LoggerRegistry.register_logger w a)) := by
  have ha : (LoggerRegistry.register_logger w a).registry.default_logger_ = some a := by
    unfold LoggerRegistry.register_logger
    simp only [h]
  exact ⟨LoggerRegistry.default_logger_of_some _ a ha,
    LoggerRegistry.default_logger_of_some _ a
      (LoggerRegistry.foldl_register_default_some bs _ a ha)⟩

/-- C9 at the loggers `app` (address `0`), `app` again (address `1`) and `other` (address `2`):
the first registered stays the default. -/
theorem C9_first_registered_is_default_witness :
    three_world.registry.default_logger_ = none
    ∧ (LoggerRegistry.default_logger
        ([1, 2].foldl LoggerRegistry.register_logger
          (LoggerRegistry.register_logger three_world 0))).1 = 0 :=
  ⟨by decide,
   congrArg Prod.fst (C9_first_registered_is_default three_world 0 [1, 2] (by decide)).2⟩

theorem LoggerRegistry.default_logger_of_none (w : World)
    (h : w.registry.default_logger_ = none) :
    LoggerRegistry.default_logger w
      = w.make_shared (Logger.ctor "default" LogLevel.Error) := by
  unfold LoggerRegistry.default_logger
  rw [h]

theorem LoggerRegistry.default_logger_calls_effect (k : Nat) :
    ∀ w : World, w.registry.default_logger_ = none →
      (LoggerRegistry.default_logger_calls k w).1 = List.range' w.next_logger k
      ∧ (LoggerRegistry.default_logger_calls k w).2.registry = w.registry
      ∧ (LoggerRegistry.default_logger_calls k w).2.next_logger = w.next_logger + k
      ∧ (LoggerRegistry.default_logger_calls k w).2.sinks = w.sinks
      ∧ (LoggerRegistry.default_logger_calls k w).2.writes = w.writes
      ∧ (∀ p, p < w.next_logger →
          (LoggerRegistry.default_logger_calls k w).2.loggers p = w.loggers p)
      ∧ (∀ p, w.next_logger ≤ p → p < w.next_logger + k →
          (LoggerRegistry.default_logger_calls k w).2.loggers p
            = Logger.ctor "default" LogLevel.Error) := by
  induction k with
  | zero =>
    intro w _
    refine ⟨rfl, rfl, rfl, rfl, rfl, fun _ _ => rfl, ?_⟩
    intro p h1 h2
    omega
  | succ k ih =>
    intro w h
    have hd := LoggerRegistry.default_logger_of_none w h
    obtain ⟨h1, h2, h3, h4, h5, h6, h7⟩ :=
      ih (w.make_shared (Logger.ctor "default" LogLevel.Error)).2 h
    have hstep : LoggerRegistry.default_logger_calls (k + 1) w
        = (w.next_logger ::
            (LoggerRegistry.default_logger_calls k
              (w.make_shared (Logger.ctor "default" LogLevel.Error)).2).1,
           (LoggerRegistry.default_logger_calls k
              (w.make_shared (Logger.ctor "default" LogLevel.Error)).2).2) := by
      rw [LoggerRegistry.default_logger_calls, hd]
      rfl
    rw [hstep]
    have hnext : (w.make_shared (Logger.ctor "default" LogLevel.Error)).2.next_logger
        = w.next_logger + 1 := rfl
    have h6 : ∀ p, p < w.next_logger + 1 →
        (LoggerRegistry.default_logger_calls k
          (w.make_shared (Logger.ctor "default" LogLevel.Error)).2).2.loggers p
        = (w.make_shared (Logger.ctor "default" LogLevel.Error)).2.loggers p := h6
    have h7 : ∀ p, w.next_logger + 1 ≤ p → p < w.next_logger + 1 + k →
        (LoggerRegistry.default_logger_calls k
          (w.make_shared (Logger.ctor "default" LogLevel.Error)).2).2.loggers p
        = Logger.ctor "default" LogLevel.Error := h7
    rw [hnext] at h1 h3
    refine ⟨?_, h2, ?_, h4, h5, ?_, ?_⟩
    · show w.next_logger :: _ = _
      rw [h1, List.range'_succ]
    · show _ = w.next_logger + (k + 1)
      rw [h3]
      omega
    · intro p hp
      have hlt : p < w.next_logger + 1 := by omega
      have hne : p ≠ w.next_logger := by omega
      show (LoggerRegistry.default_logger_calls k _).2.loggers p = _
      rw [h6 p hlt]
      show Function.update w.loggers w.next_logger _ p = _
      rw [Function.update_noteq hne]
    · intro p hp1 hp2
      show (LoggerRegistry.default_logger_calls k _).2.loggers p = _
      by_cases hp : p = w.next_logger
      · have hlt : p < w.next_logger + 1 := by omega
        rw [h6 p hlt]
        show Function.update w.loggers w.next_logger _ p = _
        rw [hp, Function.update_same]
      · have hge : w.next_logger + 1 ≤ p := by omega
        have hlt : p < w.next_logger + 1 + k := by omega
        exact h7 p hge hlt

/-- C10: with no default set, `default_logger()` returns a logger named `default` with an empty
sink sequence, at an address no earlier logger has; the registry is left as it was (no default,
and `get("default")` not found when it was not found before), and the loggers that existed are
untouched.  Any number `k` of calls in a row succeed and return `k` pairwise distinct such
loggers. -/
theorem C10_default_logger_fabricated (w : World) (k : Nat)
    (h : w.registry.default_logger_ = none) (hget : LoggerRegistry.get w "default" = none) :
    ((LoggerRegistry.default_logger w).2.loggers (LoggerRegistry.default_logger w).1).name
        = "default"
    ∧ ((LoggerRegistry.default_logger w).2.loggers (LoggerRegistry.default_logger w).1).sinks_
        = []
    ∧ w.next_logger ≤ (LoggerRegistry.default_logger w).1
    ∧ (∀ p, p < w.next_logger → (LoggerRegistry.default_logger w).2.loggers p = w.loggers p)
    ∧ (LoggerRegistry.default_logger w).2.registry = w.registry
    ∧ (LoggerRegistry.default_logger w).2.registry.default_logger_ = none
    ∧ LoggerRegistry.get (LoggerRegistry.default_logger w).2 "default" = none
    ∧ (LoggerRegistry.default_logger (LoggerRegistry.default_logger w).2).1
        ≠ (LoggerRegistry.default_logger w).1
    ∧ (LoggerRegistry.default_logger_calls k w).1.length = k
    ∧ (LoggerRegistry.default_logger_calls k w).1.Nodup
    ∧ (LoggerRegistry.default_logger_calls k w).2.registry = w.registry
    ∧ (∀ p ∈ (LoggerRegistry.default_logger_calls k w).1,
        w.next_logger ≤ p
        ∧ ((LoggerRegistry.default_logger_calls k w).2.loggers p).name = "default"
        ∧ ((LoggerRegistry.default_logger_calls k w).2.loggers p).sinks_ = []) := by
  have hd := LoggerRegistry.default_logger_of_none w h
  have hd2 := LoggerRegistry.default_logger_of_none
    (w.make_shared (Logger.ctor "default" LogLevel.Error)).2 h
  obtain ⟨h1, h2, _, _, _, _, h7⟩ := LoggerRegistry.default_logger_calls_effect k w h
  rw [hd]
  refine ⟨?_, ?_, Nat.le_refl _, ?_, rfl, h, hget, ?_, ?_, ?_, h2, ?_⟩
  · show (Function.update w.loggers w.next_logger _ w.next_logger).name = _
    rw [Function.update_same]
    rfl
  · show (Function.update w.loggers w.next_logger _ w.next_logger).sinks_ = _
    rw [Function.update_same]
    rfl
  · intro p hp
    have hne : p ≠ w.next_logger := by omega
    show Function.update w.loggers w.next_logger _ p = _
    rw [Function.update_noteq hne]
  · rw [hd2]
    show w.next_logger + 1 ≠ w.next_logger
    omega
  · rw [h1, List.length_range']
  · rw [h1]
    exact List.nodup_range' _ _
  · intro p hp
    rw [h1, List.mem_range'_1] at hp
    rw [h7 p hp.1 hp.2]
    exact ⟨hp.1, rfl, rfl⟩

/-- C10 at the state with nothing in it: three calls return the addresses 0, 1, 2. -/
theorem C10_default_logger_fabricated_witness :
    World.empty.registry.default_logger_ = none
    ∧ LoggerRegistry.get World.empty "default" = none
    ∧ (LoggerRegistry.default_logger_calls 3 World.empty).1 = [0, 1, 2]
    ∧ (LoggerRegistry.default_logger_calls 3 World.empty).1.Nodup
    ∧ LoggerRegistry.get (LoggerRegistry.default_logger World.empty).2 "default" = none :=
  ⟨by decide, by decide, by decide,
   (C10_default_logger_fabricated World.empty 3 (by decide) (by decide)).2.2.2.2.2.2.2.2.2.1,
   (C10_default_logger_fabricated World.empty 3 (by decide) (by decide)).2.2.2.2.2.2.1⟩

/-- What holds of the map `loggers_` after the calls `hist`: every mapped logger exists, bears
the name it is mapped from and was registered; every registered logger exists and its name is
mapped. -/
theorem RegistryCall.run_invariant (w : World) (hist : List RegistryCall) (c : RegistryCall)
    (hc : RegistryCall.live w [c] = true)
    (h1 : ∀ n p, LoggerRegistry.get w n = some p →
      p < w.next_logger ∧ (w.loggers p).name = n ∧ RegistryCall.register_logger p ∈ hist)
    (h2 : ∀ p, RegistryCall.register_logger p ∈ hist →
      p < w.next_logger ∧ LoggerRegistry.get w (w.loggers p).name ≠ none) :
    (∀ n p, LoggerRegistry.get (c.run w) n = some p →
      p < (c.run w).next_logger ∧ ((c.run w).loggers p).name = n
        ∧ RegistryCall.register_logger p ∈ hist ++ [c])
    ∧ (∀ p, RegistryCall.register_logger p ∈ hist ++ [c] →
      p < (c.run w).next_logger
        ∧ LoggerRegistry.get (c.run w) ((c.run w).loggers p).name ≠ none) := by
  cases c with
  | register_logger q =>
    have hq : q < w.next_logger := by
      simpa [RegistryCall.live] using hc
    have hget : ∀ n, LoggerRegistry.get (LoggerRegistry.register_logger w q) n
        = if n = (w.loggers q).name then some q else LoggerRegistry.get w n := by
      intro n
      simp only [LoggerRegistry.get, LoggerRegistry.register_logger, Function.update_apply]
    constructor
    · intro n p hp
      show p < w.next_logger ∧ (w.loggers p).name = n ∧ _
      rw [RegistryCall.run, hget] at hp
      by_cases hn : n = (w.loggers q).name
      · rw [if_pos hn] at hp
        have hpq : q = p := Option.some.inj hp
        subst hpq
        exact ⟨hq, hn.symm, List.mem_append_right _ (List.mem_singleton.2 rfl)⟩
      · rw [if_neg hn] at hp
        obtain ⟨a, b, c⟩ := h1 n p hp
        exact ⟨a, b, List.mem_append_left _ c⟩
    · intro p hp
      show p < w.next_logger
        ∧ LoggerRegistry.get (LoggerRegistry.register_logger w q) (w.loggers p).name ≠ none
      rw [hget]
      rcases List.mem_append.1 hp with hp | hp
      · obtain ⟨a, b⟩ := h2 p hp
        refine ⟨a, ?_⟩
        split
        · exact Option.some_ne_none _
        · exact b
      · have hpq : p = q := by
          have := List.mem_singleton.1 hp
          exact RegistryCall.register_logger.inj this
        subst hpq
        exact ⟨hq, by rw [if_pos rfl]; exact Option.some_ne_none _⟩
  | set_default_logger o =>
    constructor
    · intro n p hp
      obtain ⟨a, b, c⟩ := h1 n p hp
      exact ⟨a, b, List.mem_append_left _ c⟩
    · intro p hp
      rcases List.mem_append.1 hp with hp | hp
      · exact h2 p hp
      · exact absurd (List.mem_singleton.1 hp) (by simp)
  | default_logger =>
    have hrun : (RegistryCall.default_logger.run w).registry = w.registry
        ∧ w.next_logger ≤ (RegistryCall.default_logger.run w).next_logger
        ∧ ∀ p, p < w.next_logger →
            (RegistryCall.default_logger.run w).loggers p = w.loggers p := by
      unfold RegistryCall.run LoggerRegistry.default_logger
      cases w.registry.default_logger_ with
      | some d => exact ⟨rfl, Nat.le_refl _, fun _ _ => rfl⟩
      | none =>
        refine ⟨rfl, Nat.le_succ _, ?_⟩
        intro p hp
        have hne : p ≠ w.next_logger := by omega
        show Function.update w.loggers w.next_logger _ p = _
        rw [Function.update_noteq hne]
    obtain ⟨hreg, hnext, hlog⟩ := hrun
    have hget : ∀ n, LoggerRegistry.get (RegistryCall.default_logger.run w) n
        = LoggerRegistry.get w n := by
      intro n
      unfold LoggerRegistry.get
      rw [hreg]
    constructor
    · intro n p hp
      rw [hget] at hp
      obtain ⟨a, b, c⟩ := h1 n p hp
      rw [hlog p a]
      exact ⟨Nat.lt_of_lt_of_le a hnext, b, List.mem_append_left _ c⟩
    · intro p hp
      rcases List.mem_append.1 hp with hp | hp
      · obtain ⟨a, b⟩ := h2 p hp
        rw [hlog p a, hget]
        exact ⟨Nat.lt_of_lt_of_le a hnext, b⟩
      · exact absurd (List.mem_singleton.1 hp) (by simp)

theorem RegistryCall.live_cons (w : World) (c : RegistryCall) (rest : List RegistryCall)
    (h : RegistryCall.live w (c :: rest) = true) :
    RegistryCall.live w [c] = true ∧ RegistryCall.live (c.run w) rest = true := by
  cases c with
  | register_logger q =>
    simp only [RegistryCall.live, Bool.and_eq_true, decide_eq_true_eq, Bool.and_true] at h ⊢
    exact ⟨h.1, h.2⟩
  | set_default_logger o => exact ⟨rfl, h⟩
  | default_logger => exact ⟨rfl, h⟩

theorem LoggerRegistry.run_calls_invariant (calls : List RegistryCall) :
    ∀ (w : World) (hist : List RegistryCall), RegistryCall.live w calls = true →
      (∀ n p, LoggerRegistry.get w n = some p →
        p < w.next_logger ∧ (w.loggers p).name = n ∧ RegistryCall.register_logger p ∈ hist) →
      (∀ p, RegistryCall.register_logger p ∈ hist →
        p < w.next_logger ∧ LoggerRegistry.get w (w.loggers p).name ≠ none) →
      (∀ n p, LoggerRegistry.get (LoggerRegistry.run_calls w calls) n = some p →
        ((LoggerRegistry.run_calls w calls).loggers p).name = n
          ∧ RegistryCall.register_logger p ∈ hist ++ calls)
      ∧ (∀ p, RegistryCall.register_logger p ∈ hist ++ calls →
        LoggerRegistry.get (LoggerRegistry.run_calls w calls)
          ((LoggerRegistry.run_calls w calls).loggers p).name ≠ none) := by
  induction calls with
  | nil =>
    intro w hist _ h1 h2
    rw [List.append_nil]
    exact ⟨fun n p hp => ⟨(h1 n p hp).2.1, (h1 n p hp).2.2⟩, fun p hp => (h2 p hp).2⟩
  | cons c rest ih =>
    intro w hist hl h1 h2
    obtain ⟨hc, hrest⟩ := RegistryCall.live_cons w c rest hl
    obtain ⟨g1, g2⟩ := RegistryCall.run_invariant w hist c hc h1 h2
    have := ih (c.run w) (hist ++ [c]) hrest g1 g2
    rw [List.append_assoc, List.singleton_append] at this
    exact this

/-- C8: after any sequence of `register_logger`, `set_default_logger` and `default_logger` calls
on a registry that was empty, each registered pointer being the address of an existing logger:
`get(n)` is null when no logger named `n` was registered; whatever `get(n)` returns is a logger
named `n` that was handed to `register_logger` (so never one that was only made the default, nor
one `default_logger` made up); and when a logger named `n` was registered, `get(n)` returns a
logger named `n`. -/
theorem C8_get_returns_registered_or_null (w : World) (calls : List RegistryCall) (n : String)
    (h0 : ∀ k, LoggerRegistry.get w k = none) (hl : RegistryCall.live w calls = true) :
    ((∀ p, RegistryCall.register_logger p ∈ calls →
        ((LoggerRegistry.run_calls w calls).loggers p).name ≠ n) →
      LoggerRegistry.get (LoggerRegistry.run_calls w calls) n = none)
    ∧ (∀ p, LoggerRegistry.get (LoggerRegistry.run_calls w calls) n = some p →
        ((LoggerRegistry.run_calls w calls).loggers p).name = n
          ∧ RegistryCall.register_logger p ∈ calls)
    ∧ ((∃ p, RegistryCall.register_logger p ∈ calls
          ∧ ((LoggerRegistry.run_calls w calls).loggers p).name = n) →
        ∃ q, LoggerRegistry.get (LoggerRegistry.run_calls w calls) n = some q
          ∧ ((LoggerRegistry.run_calls w calls).loggers q).name = n) := by
  obtain ⟨g1, g2⟩ := LoggerRegistry.run_calls_invariant calls w [] hl
    (fun k p hp => by rw [h0 k] at hp; exact absurd hp (by simp))
    (fun p hp => absurd hp (List.not_mem_nil _))
  rw [List.nil_append] at g1 g2
  refine ⟨?_, fun p hp => g1 n p hp, ?_⟩
  · intro hnone
    cases hg : LoggerRegistry.get (LoggerRegistry.run_calls w calls) n with
    | none => rfl
    | some p => exact absurd (g1 n p hg).1 (hnone p (g1 n p hg).2)
  · rintro ⟨p, hp, hname⟩
    have hne := g2 p hp
    rw [hname] at hne
    cases hg : LoggerRegistry.get (LoggerRegistry.run_calls w calls) n with
    | none => exact absurd hg hne
    | some q => exact ⟨q, rfl, (g1 n q hg).1⟩

/-- C8 at the loggers `a` (address `0`) and `b` (address `1`): `a` is registered, `b` is only
made the default, then `default_logger()` is called; `get("a")` gives `a`, `get("b")` and
`get("default")` give null. -/
theorem C8_get_returns_registered_or_null_witness :
    (∀ k, LoggerRegistry.get ab_world k = none)
    ∧ RegistryCall.live ab_world
        [RegistryCall.register_logger 0, RegistryCall.set_default_logger (some 1),
         RegistryCall.default_logger] = true
    ∧ LoggerRegistry.get
        (LoggerRegistry.run_calls ab_world
          [RegistryCall.register_logger 0, RegistryCall.set_default_logger (some 1),
           RegistryCall.default_logger]) "a" = some 0
    ∧ LoggerRegistry.get
        (LoggerRegistry.run_calls ab_world
          [RegistryCall.register_logger 0, RegistryCall.set_default_logger (some 1),
           RegistryCall.default_logger]) "b" = none
    ∧ LoggerRegistry.get
        (LoggerRegistry.run_calls ab_world
          [RegistryCall.register_logger 0, RegistryCall.set_default_logger (some 1),
           RegistryCall.default_logger]) "default" = none :=
  ⟨fun _ => rfl, by decide, by decide,
   (C8_get_returns_registered_or_null ab_world
      [RegistryCall.register_logger 0, RegistryCall.set_default_logger (some 1),
       RegistryCall.default_logger] "b" (fun _ => rfl) (by decide)).1
      (fun p hp => by
        have hp0 : p = 0 := by simpa using hp
        subst hp0
        decide),
   (C8_get_returns_registered_or_null ab_world
      [RegistryCall.register_logger 0, RegistryCall.set_default_logger (some 1),
       RegistryCall.default_logger] "default" (fun _ => rfl) (by decide)).1
      (fun p hp => by
        have hp0 : p = 0 := by simpa using hp
        subst hp0
        decide)⟩

/-! ## Setting the default logger -/

/-- C11: in every state and for every logger `L`, after `set_default_logger(L)` the call
`default_logger()` returns `L` and makes no new logger, whatever the default was; `get` returns
for every name what it returned before, and no logger or sink object is changed. -/
theorem C11_set_default_logger_frame (w : World) (L : logger_ptr) :
    LoggerRegistry.default_logger (LoggerRegistry.set_default_logger w (some L))
      = (L, LoggerRegistry.set_default_logger w (some L))
    ∧ (∀ n : String,
        LoggerRegistry.get (LoggerRegistry.set_default_logger w (some L)) n
          = LoggerRegistry.get w n)
    ∧ (LoggerRegistry.set_default_logger w (some L)).registry.loggers_ = w.registry.loggers_
    ∧ (LoggerRegistry.set_default_logger w (some L)).loggers = w.loggers
    ∧ (LoggerRegistry.set_default_logger w (some L)).sinks = w.sinks
    ∧ (∀ n : String,
        LoggerRegistry.get
            (LoggerRegistry.default_logger (LoggerRegistry.set_default_logger w (some L))).2 n
          = LoggerRegistry.get w n) := by
  have h : LoggerRegistry.default_logger (LoggerRegistry.set_default_logger w (some L))
      = (L, LoggerRegistry.set_default_logger w (some L)) :=
    LoggerRegistry.default_logger_of_some _ L rfl
  refine ⟨h, fun _ => rfl, rfl, rfl, rfl, ?_⟩
  intro n
  rw [h]
  rfl

/-! ## Constructors -/

theorem Logger.log_silent_of_not_should_log (w : World) (self : logger_ptr) (L : LogLevel)
    (m : String) (h : (w.loggers self).should_log L = false) :
    Logger.log w self L m = w := by
  unfold Logger.log
  rw [h]
  rfl

/-- C12: a logger made with no level given, by name only, by name and one sink, or by name and a
range of sinks, holds exactly the given sinks in the given order (none for the name-only form) and
has threshold `Error`: `should_log(L)` holds exactly for `Error` and `Fatal`, and `log(L, m)` at
any other level leaves the state as it is, so writes to no sink. -/
theorem C12_constructor_defaults (w : World) (name : String) (sink : sink_ptr)
    (range : List sink_ptr) (L : LogLevel) (m : String) :
    ((Logger.ctor name (Logger.level_arg none)).sinks_ = []
      ∧ (Logger.ctor_sink name sink (Logger.level_arg none)).sinks_ = [sink]
      ∧ (Logger.ctor_range name range (Logger.level_arg none)).sinks_ = range)
    ∧ ((Logger.ctor name (Logger.level_arg none)).level_ = LogLevel.Error
      ∧ (Logger.ctor_sink name sink (Logger.level_arg none)).level_ = LogLevel.Error
      ∧ (Logger.ctor_range name range (Logger.level_arg none)).level_ = LogLevel.Error)
    ∧ (((Logger.ctor name (Logger.level_arg none)).should_log L = true
          ↔ L = LogLevel.Error ∨ L = LogLevel.Fatal)
      ∧ ((Logger.ctor_sink name sink (Logger.level_arg none)).should_log L = true
          ↔ L = LogLevel.Error ∨ L = LogLevel.Fatal)
      ∧ ((Logger.ctor_range name range (Logger.level_arg none)).should_log L = true
          ↔ L = LogLevel.Error ∨ L = LogLevel.Fatal))
    ∧ (L ∈ [LogLevel.None, LogLevel.Trace, LogLevel.Debug, LogLevel.Info, LogLevel.Warning] →
        writes_since (w.make_shared (Logger.ctor name (Logger.level_arg none))).2
            (Logger.log (w.make_shared (Logger.ctor name (Logger.level_arg none))).2
              (w.make_shared (Logger.ctor name (Logger.level_arg none))).1 L m) = []
        ∧ writes_since (w.make_shared (Logger.ctor_sink name sink (Logger.level_arg none))).2
            (Logger.log (w.make_shared (Logger.ctor_sink name sink (Logger.level_arg none))).2
              (w.make_shared (Logger.ctor_sink name sink (Logger.level_arg none))).1 L m) = []
        ∧ writes_since (w.make_shared (Logger.ctor_range name range (Logger.level_arg none))).2
            (Logger.log (w.make_shared (Logger.ctor_range name range (Logger.level_arg none))).2
              (w.make_shared (Logger.ctor_range name range (Logger.level_arg none))).1 L m)
            = []) := by
  have hiff : ∀ lg : Logger, lg.level_ = LogLevel.Error →
      (lg.should_log L = true ↔ L = LogLevel.Error ∨ L = LogLevel.Fatal) := by
    intro lg hlg
    rw [Logger.logger_should_log_iff, hlg]
    cases L <;> decide
  have hsilent : ∀ lg : Logger, lg.level_ = LogLevel.Error →
      L ∈ [LogLevel.None, LogLevel.Trace, LogLevel.Debug, LogLevel.Info, LogLevel.Warning] →
      writes_since (w.make_shared lg).2
        (Logger.log (w.make_shared lg).2 (w.make_shared lg).1 L m) = [] := by
    intro lg hlg hL
    have hself : (w.make_shared lg).2.loggers (w.make_shared lg).1 = lg := by
      show Function.update w.loggers w.next_logger lg w.next_logger = lg
      rw [Function.update_same]
    have hno : ((w.make_shared lg).2.loggers (w.make_shared lg).1).should_log L = false := by
      rw [hself]
      cases hb : lg.should_log L with
      | false => rfl
      | true =>
        rcases (hiff lg hlg).1 hb with h | h <;> (subst h; simp at hL)
    rw [Logger.log_writes_since, hno]
    rfl
  refine ⟨⟨rfl, rfl, rfl⟩, ⟨rfl, rfl, rfl⟩, ⟨hiff _ rfl, hiff _ rfl, hiff _ rfl⟩, ?_⟩
  intro hL
  exact ⟨hsilent _ rfl hL, hsilent _ rfl hL, hsilent _ rfl hL⟩

/-! ## Names of levels -/

/-- C13: `from_string(to_string(L))` is `L` for each of the 7 levels; the names are, in order,
`None`, `Trace`, `Debug`, `Info`, `Warning`, `Error`, `Fatal`, pairwise distinct; and
`from_string` returns not-found for every other string, among them the empty string, `error` and
a name with spaces around it. -/
theorem C13_from_string_to_string :
    (∀ L : LogLevel, from_string (to_string L) = some L)
    ∧ [LogLevel.None, LogLevel.Trace, LogLevel.Debug, LogLevel.Info, LogLevel.Warning,
        LogLevel.Error, LogLevel.Fatal].map to_string
      = ["None", "Trace", "Debug", "Info", "Warning", "Error", "Fatal"]
    ∧ (∀ a b : LogLevel, to_string a = to_string b → a = b)
    ∧ (∀ s : String, s ∉ ["None", "Trace", "Debug", "Info", "Warning", "Error", "Fatal"] →
        from_string s = none)
    ∧ (∀ (s : String) (L : LogLevel), from_string s = some L → s = to_string L)
    ∧ from_string "" = none
    ∧ from_string "error" = none
    ∧ from_string "ERROR" = none
    ∧ from_string " Error " = none := by
  refine ⟨?_, rfl, ?_, ?_, ?_, by decide, by decide, by decide, by decide⟩
  · intro L
    cases L <;> decide
  · intro a b
    cases a <;> cases b <;> decide
  · intro s hs
    simp only [List.mem_cons, List.mem_singleton, List.not_mem_nil, or_false, not_or] at hs
    obtain ⟨h1, h2, h3, h4, h5, h6, h7⟩ := hs
    simp only [from_string, h1, h2, h3, h4, h5, h6, h7, if_false]
  · intro s L h
    unfold from_string at h
    split at h
    · rename_i e; cases h; exact e
    · split at h
      · rename_i e; cases h; exact e
      · split at h
        · rename_i e; cases h; exact e
        · split at h
          · rename_i e; cases h; exact e
          · split at h
            · rename_i e; cases h; exact e
            · split at h
              · rename_i e; cases h; exact e
              · split at h
                · rename_i e; cases h; exact e
                · cases h

/-! ## Sinks and their destinations -/

theorem Sink.write_of_closed (lv : LogLevel) (os : OStream) (msg : String) :
    Sink.write { level_ := lv, impl := SinkImpl.FileSink { is_open := false, stream := os } } msg
      = { level_ := lv, impl := SinkImpl.FileSink { is_open := false, stream := os } } := rfl

theorem Sink.flush_of_closed (lv : LogLevel) (os : OStream) :
    Sink.flush { level_ := lv, impl := SinkImpl.FileSink { is_open := false, stream := os } }
      = { level_ := lv, impl := SinkImpl.FileSink { is_open := false, stream := os } } := rfl

theorem Sink.run_calls_of_closed (lv : LogLevel) (os : OStream) (calls : List SinkCall) :
    Sink.run_calls
        { level_ := lv, impl := SinkImpl.FileSink { is_open := false, stream := os } } calls
      = { level_ := lv, impl := SinkImpl.FileSink { is_open := false, stream := os } } := by
  induction calls with
  | nil => rfl
  | cons c rest ih =>
    cases c with
    | write msg =>
      show Sink.run_calls (Sink.write _ msg) rest = _
      rw [Sink.write_of_closed, ih]
    | flush =>
      show Sink.run_calls (Sink.flush _) rest = _
      rw [Sink.flush_of_closed, ih]

theorem Sink.write_content (s : Sink) (msg : String) (h : s.accepts_writes = true) :
    (s.write msg).accepts_writes = true
      ∧ (s.write msg).stream.content = s.stream.content ++ msg := by
  obtain ⟨lv, impl⟩ := s
  cases impl with
  | ostreamSink os ff =>
    refine ⟨rfl, ?_⟩
    cases ff with
    | false =>
      show os.dest ++ (os.buffer ++ msg) = os.dest ++ os.buffer ++ msg
      rw [String.append_assoc]
    | true =>
      show os.dest ++ (os.buffer ++ msg) ++ "" = os.dest ++ os.buffer ++ msg
      rw [String.append_empty, String.append_assoc]
  | FileSink ofs =>
    obtain ⟨op, os⟩ := ofs
    have hop : op = true := h
    subst hop
    refine ⟨rfl, ?_⟩
    show os.dest ++ (os.buffer ++ msg) = os.dest ++ os.buffer ++ msg
    rw [String.append_assoc]

theorem Sink.run_writes_content (msgs : List String) :
    ∀ s : Sink, s.accepts_writes = true →
      (s.run_calls (msgs.map SinkCall.write)).accepts_writes = true
      ∧ (s.run_calls (msgs.map SinkCall.write)).stream.content
          = s.stream.content ++ String.join msgs := by
  induction msgs with
  | nil =>
    intro s h
    refine ⟨h, ?_⟩
    show s.stream.content = s.stream.content ++ ""
    rw [String.append_empty]
  | cons m rest ih =>
    intro s h
    obtain ⟨h1, h2⟩ := Sink.write_content s m h
    obtain ⟨h3, h4⟩ := ih (s.write m) h1
    refine ⟨h3, ?_⟩
    show (Sink.run_calls (s.write m) (rest.map SinkCall.write)).stream.content = _
    rw [h4, h2, string_join_cons, String.append_assoc]

theorem Sink.flush_dest (s : Sink) (h : s.accepts_writes = true) :
    s.flush.stream.dest = s.stream.content ∧ s.flush.stream.buffer = "" := by
  obtain ⟨lv, impl⟩ := s
  cases impl with
  | ostreamSink os ff => exact ⟨rfl, rfl⟩
  | FileSink ofs =>
    obtain ⟨op, os⟩ := ofs
    have hop : op = true := h
    subst hop
    exact ⟨rfl, rfl⟩

theorem Sink.run_calls_append (s : Sink) (a b : List SinkCall) :
    s.run_calls (a ++ b) = (s.run_calls a).run_calls b := by
  unfold Sink.run_calls
  rw [List.foldl_append]

/-- C14: a `FileSink` made on a file that cannot be opened: the constructor sends the one text
`Failed to open log file` to `std::cerr` and nothing to the sink, whose stream stays empty and
closed; after that any sequence of `write` and `flush` calls leaves the sink as it is and the file
with the content it had.  Nothing is sent to `std::cerr` when the file opens. -/
theorem C14_unopened_file_sink (P : String) (overwrite : Bool) (calls : List SinkCall) :
    (FileSink.ctor { openable := false, content := P } overwrite).2 = "Failed to open log file"
    ∧ (FileSink.ctor { openable := false, content := P } overwrite).1.accepts_writes = false
    ∧ (FileSink.ctor { openable := false, content := P } overwrite).1.stream
        = { buffer := "", dest := P }
    ∧ (FileSink.ctor { openable := false, content := P } overwrite).1.run_calls calls
        = (FileSink.ctor { openable := false, content := P } overwrite).1
    ∧ ((FileSink.ctor { openable := false, content := P } overwrite).1.run_calls calls).stream.dest
        = P
    ∧ (FileSink.ctor { openable := true, content := P } overwrite).2 = "" := by
  have hrun := Sink.run_calls_of_closed LogLevel.Trace { buffer := "", dest := P } calls
  refine ⟨rfl, rfl, rfl, hrun, ?_, rfl⟩
  show (Sink.run_calls
    { level_ := LogLevel.Trace,
      impl := SinkImpl.FileSink { is_open := false, stream := { buffer := "", dest := P } } }
    calls).stream.dest = P
  rw [hrun]
  rfl

/-- C15, as stated, fails: a `FileSink` opened on a file of content `P`, after the writes `m1`
and `m2` and no flush, has the two texts in its stream buffer; the file still holds `P` in append
mode, not `Pm1m2`, and nothing in truncate mode, not `m1m2`. -/
theorem C15_unflushed_writes_counterexample :
    (FileSink.ctor { openable := true, content := "P" } false).2 = ""
    ∧ ((FileSink.ctor { openable := true, content := "P" } false).1.run_calls
        [SinkCall.write "m1", SinkCall.write "m2"]).stream.dest = "P"
    ∧ ((FileSink.ctor { openable := true, content := "P" } false).1.run_calls
        [SinkCall.write "m1", SinkCall.write "m2"]).stream.dest ≠ "P" ++ "m1" ++ "m2"
    ∧ ((FileSink.ctor { openable := true, content := "P" } true).1.run_calls
        [SinkCall.write "m1", SinkCall.write "m2"]).stream.dest = ""
    ∧ ((FileSink.ctor { openable := true, content := "P" } true).1.run_calls
        [SinkCall.write "m1", SinkCall.write "m2"]).stream.dest ≠ "m1" ++ "m2"
    ∧ ((FileSink.ctor { openable := true, content := "P" } false).1.run_calls
        [SinkCall.write "m1", SinkCall.write "m2"]).stream.buffer = "m1m2" := by
  decide

/-- C15, amended: a `FileSink` opened on a file of content `P`: after the writes `m1..mn` the
characters its stream has taken, those in the file followed by those still buffered, are
`P + m1 + ... + mn` when `overwrite` is false and `m1 + ... + mn` when it is true, and that is the
content of the file once the sink is flushed; on a `FileSink` with an open file and on an
`ostreamSink` each write adds exactly the characters of its argument at the end of what the stream
has taken. -/
theorem C15_file_sink_content (P : String) (overwrite : Bool) (msgs : List String)
    (lv : LogLevel) (os : OStream) (ff : Bool) (msg : String) :
    ((FileSink.ctor { openable := true, content := P } overwrite).1.run_calls
        (msgs.map SinkCall.write)).stream.content
      = (if overwrite then "" else P) ++ String.join msgs
    ∧ ((FileSink.ctor { openable := true, content := P } overwrite).1.run_calls
        (msgs.map SinkCall.write ++ [SinkCall.flush])).stream.dest
      = (if overwrite then "" else P) ++ String.join msgs
    ∧ ((FileSink.ctor { openable := true, content := P } false).1.run_calls
        (msgs.map SinkCall.write)).stream.content = P ++ String.join msgs
    ∧ ((FileSink.ctor { openable := true, content := P } true).1.run_calls
        (msgs.map SinkCall.write)).stream.content = String.join msgs
    ∧ (Sink.write { level_ := lv, impl := SinkImpl.FileSink { is_open := true, stream := os } }
        msg).stream.content = os.content ++ msg
    ∧ (Sink.write { level_ := lv, impl := SinkImpl.ostreamSink os ff } msg).stream.content
        = os.content ++ msg
    ∧ ((ostreamSink.ctor os ff).run_calls (msgs.map SinkCall.write)).stream.content
        = os.content ++ String.join msgs := by
  have hopen : ∀ ow : Bool,
      (FileSink.ctor { openable := true, content := P } ow).1.accepts_writes = true :=
    fun _ => rfl
  have hcontent : ∀ ow : Bool,
      (FileSink.ctor { openable := true, content := P } ow).1.stream.content
        = (if ow then "" else P) := by
    intro ow
    show (if ow = true then "" else P) ++ "" = _
    rw [String.append_empty]
  have hw : ∀ ow : Bool,
      ((FileSink.ctor { openable := true, content := P } ow).1.run_calls
          (msgs.map SinkCall.write)).stream.content
        = (if ow then "" else P) ++ String.join msgs := by
    intro ow
    rw [(Sink.run_writes_content msgs _ (hopen ow)).2, hcontent]
  refine ⟨hw overwrite, ?_, ?_, ?_, ?_, ?_, ?_⟩
  · rw [Sink.run_calls_append]
    show (Sink.flush _).stream.dest = _
    rw [(Sink.flush_dest _ (Sink.run_writes_content msgs _ (hopen overwrite)).1).1, hw]
  · exact hw false
  · have := hw true
    rw [this]
    show "" ++ String.join msgs = _
    rw [String.empty_append]
  · exact (Sink.write_content
      { level_ := lv, impl := SinkImpl.FileSink { is_open := true, stream := os } } msg rfl).2
  · exact (Sink.write_content { level_ := lv, impl := SinkImpl.ostreamSink os ff } msg rfl).2
  · exact (Sink.run_writes_content msgs (ostreamSink.ctor os ff) rfl).2

/-- C18: `flush()` on a `FileSink` with an open file writes the buffered characters out and closes
the file: what was written before is in the file; after it any sequence of `write` and `flush`
calls leaves the sink, and so the file, as it is.  On an `ostreamSink` a write after `flush()` is
taken by the stream and reaches the destination with the next flush. -/
theorem C18_flush_closes_file_sink (lv : LogLevel) (os : OStream) (ff : Bool) (P : String)
    (overwrite : Bool) (msgs : List String) (msg : String) (calls : List SinkCall) :
    Sink.flush { level_ := lv, impl := SinkImpl.FileSink { is_open := true, stream := os } }
      = { level_ := lv,
          impl := SinkImpl.FileSink
            { is_open := false, stream := { buffer := "", dest := os.dest ++ os.buffer } } }
    ∧ ((FileSink.ctor { openable := true, content := P } overwrite).1.run_calls
        (msgs.map SinkCall.write ++ [SinkCall.flush])).stream.dest
      = (if overwrite then "" else P) ++ String.join msgs
    ∧ (Sink.flush
          { level_ := lv, impl := SinkImpl.FileSink { is_open := true, stream := os } }).run_calls
        calls
      = Sink.flush { level_ := lv, impl := SinkImpl.FileSink { is_open := true, stream := os } }
    ∧ ((Sink.flush
          { level_ := lv, impl := SinkImpl.FileSink { is_open := true, stream := os } }).write
        msg).stream.content = os.content
    ∧ ((Sink.flush { level_ := lv, impl := SinkImpl.ostreamSink os ff }).write msg).stream.content
        = os.content ++ msg
    ∧ (((Sink.flush { level_ := lv, impl := SinkImpl.ostreamSink os ff }).write msg).flush).stream.dest
        = os.content ++ msg := by
  have hfile : ((FileSink.ctor { openable := true, content := P } overwrite).1.run_calls
        (msgs.map SinkCall.write ++ [SinkCall.flush])).stream.dest
      = (if overwrite then "" else P) ++ String.join msgs := by
    have hopen : (FileSink.ctor { openable := true, content := P } overwrite).1.accepts_writes
        = true := rfl
    obtain ⟨h1, h2⟩ := Sink.run_writes_content msgs _ hopen
    rw [Sink.run_calls_append]
    show (Sink.flush _).stream.dest = _
    rw [(Sink.flush_dest _ h1).1, h2]
    show (if overwrite = true then "" else P) ++ "" ++ String.join msgs = _
    rw [String.append_empty]
  have host : ((Sink.flush { level_ := lv, impl := SinkImpl.ostreamSink os ff }).write
      msg).stream.content = os.content ++ msg := by
    rw [(Sink.write_content (Sink.flush { level_ := lv, impl := SinkImpl.ostreamSink os ff })
      msg rfl).2]
    show os.dest ++ os.buffer ++ "" ++ msg = os.dest ++ os.buffer ++ msg
    rw [String.append_empty]
  refine ⟨rfl, hfile, Sink.run_calls_of_closed lv _ calls, ?_, host, ?_⟩
  · show os.dest ++ os.buffer ++ "" = os.dest ++ os.buffer
    rw [String.append_empty]
  · rw [(Sink.flush_dest _ (Sink.write_content
      (Sink.flush { level_ := lv, impl := SinkImpl.ostreamSink os ff }) msg rfl).1).1, host]

/-! ## The free functions -/

theorem Logger.log_format_eq_log (vformat : String → List StreamValue → String) (w : World)
    (self : logger_ptr) (L : LogLevel) (fmt : String) (args : List StreamValue) :
    Logger.log_format vformat w self L fmt args = Logger.log w self L (vformat fmt args) := rfl

theorem LoggerRegistry.fabricated_default_is_silent (w : World) (L : LogLevel) (msg : String)
    (h : w.registry.default_logger_ = none) :
    writes_since w
      (Logger.log (LoggerRegistry.default_logger w).2 (LoggerRegistry.default_logger w).1 L msg)
      = [] := by
  rw [LoggerRegistry.default_logger_of_none w h]
  apply writes_since_append
  rw [Logger.log_writes]
  have hsinks : ((w.make_shared (Logger.ctor "default" LogLevel.Error)).2.loggers
      (w.make_shared (Logger.ctor "default" LogLevel.Error)).1).sinks_ = [] := by
    show (Function.update w.loggers w.next_logger _ w.next_logger).sinks_ = []
    rw [Function.update_same]
    rfl
  rw [hsinks]
  show w.writes ++ (if _ then [] else []) = w.writes ++ []
  split <;> rfl

/-- C17: each of `trace`, `debug`, `info`, `warning`, `error`, `fatal`, given a string or a format
with arguments, is `log` at the level of its name on the logger `default_logger()` returns, the
format form with the formatted text as message; when a default `d` is set that is `log` on `d`,
and when none is set nothing is written.  After the statements of `main`, `info("Hello world!")`
writes one record, of message `Hello world!`, to the sink of `Main Log`. -/
theorem C17_convenience_functions (vformat : String → List StreamValue → String) (w : World)
    (msg fmt : String) (args : List StreamValue) :
    (logger.trace w msg
        = Logger.log (LoggerRegistry.default_logger w).2 (LoggerRegistry.default_logger w).1
            LogLevel.Trace msg
      ∧ logger.debug w msg
        = Logger.log (LoggerRegistry.default_logger w).2 (LoggerRegistry.default_logger w).1
            LogLevel.Debug msg
      ∧ logger.info w msg
        = Logger.log (LoggerRegistry.default_logger w).2 (LoggerRegistry.default_logger w).1
            LogLevel.Info msg
      ∧ logger.warning w msg
        = Logger.log (LoggerRegistry.default_logger w).2 (LoggerRegistry.default_logger w).1
            LogLevel.Warning msg
      ∧ logger.error w msg
        = Logger.log (LoggerRegistry.default_logger w).2 (LoggerRegistry.default_logger w).1
            LogLevel.Error msg
      ∧ logger.fatal w msg
        = Logger.log (LoggerRegistry.default_logger w).2 (LoggerRegistry.default_logger w).1
            LogLevel.Fatal msg)
    ∧ (logger.trace_fmt vformat w fmt args
        = Logger.log (LoggerRegistry.default_logger w).2 (LoggerRegistry.default_logger w).1
            LogLevel.Trace (vformat fmt args)
      ∧ logger.debug_fmt vformat w fmt args
        = Logger.log (LoggerRegistry.default_logger w).2 (LoggerRegistry.default_logger w).1
            LogLevel.Debug (vformat fmt args)
      ∧ logger.info_fmt vformat w fmt args
        = Logger.log (LoggerRegistry.default_logger w).2 (LoggerRegistry.default_logger w).1
            LogLevel.Info (vformat fmt args)
      ∧ logger.warning_fmt vformat w fmt args
        = Logger.log (LoggerRegistry.default_logger w).2 (LoggerRegistry.default_logger w).1
            LogLevel.Warning (vformat fmt args)
      ∧ logger.error_fmt vformat w fmt args
        = Logger.log (LoggerRegistry.default_logger w).2 (LoggerRegistry.default_logger w).1
            LogLevel.Error (vformat fmt args)
      ∧ logger.fatal_fmt vformat w fmt args
        = Logger.log (LoggerRegistry.default_logger w).2 (LoggerRegistry.default_logger w).1
            LogLevel.Fatal (vformat fmt args))
    ∧ (∀ d : logger_ptr, w.registry.default_logger_ = some d →
        logger.trace w msg = Logger.log w d LogLevel.Trace msg
        ∧ logger.debug w msg = Logger.log w d LogLevel.Debug msg
        ∧ logger.info w msg = Logger.log w d LogLevel.Info msg
        ∧ logger.warning w msg = Logger.log w d LogLevel.Warning msg
        ∧ logger.error w msg = Logger.log w d LogLevel.Error msg
        ∧ logger.fatal w msg = Logger.log w d LogLevel.Fatal msg)
    ∧ (w.registry.default_logger_ = none →
        writes_since w (logger.error w msg) = [] ∧ writes_since w (logger.fatal w msg) = [])
    ∧ (LoggerRegistry.default_logger main_world).1 = 0
    ∧ writes_since main_world (logger.info main_world "Hello world!")
        = [(0, "[2024-05-01 12:00:00 UTC] (Main Log) \x1b[37m[Info]\x1b[0m: Hello world!\n")]
    ∧ writes_since main_world (logger.debug main_world "Hello world!") = [] := by
  refine ⟨⟨rfl, rfl, rfl, rfl, rfl, rfl⟩, ⟨rfl, rfl, rfl, rfl, rfl, rfl⟩, ?_, ?_,
    by decide, by decide, by decide⟩
  · intro d hd
    have h := LoggerRegistry.default_logger_of_some w d hd
    unfold logger.trace logger.debug logger.info logger.warning logger.error logger.fatal
    rw [h]
    exact ⟨rfl, rfl, rfl, rfl, rfl, rfl⟩
  · intro hnone
    exact ⟨LoggerRegistry.fabricated_default_is_silent w LogLevel.Error msg hnone,
      LoggerRegistry.fabricated_default_is_silent w LogLevel.Fatal msg hnone⟩

/-! ## Colour tags -/

/-- C19: the colour tag of `Fatal` is ESC, `[`, `0;96` with no final `m`, so it is not a complete
SGR escape sequence, while the tags of the six other levels and the reset code are; a record at
`Fatal` carries the unterminated tag in front of its level name. -/
theorem C19_fatal_color_unterminated :
    get_color LogLevel.Fatal = "\x1b[0;96"
    ∧ is_sgr (get_color LogLevel.Fatal) = false
    ∧ is_sgr (get_color LogLevel.Fatal ++ "m") = true
    ∧ (∀ L : LogLevel, L ≠ LogLevel.Fatal → is_sgr (get_color L) = true)
    ∧ is_sgr reset_color = true
    ∧ Logger.format "2024-05-01 12:00:00 UTC" "svc" LogLevel.Fatal "down"
        = "[2024-05-01 12:00:00 UTC] (svc) \x1b[0;96[Fatal]\x1b[0m: down\n" := by
  refine ⟨rfl, by decide, by decide, ?_, by decide, by decide⟩
  intro L hL
  cases L <;> first | decide | exact absurd rfl hL

/-! ## Removing a sink that is not attached -/

/-- C20: `remove_sink(s)` has a defined result exactly when the logger holds `s`; on a logger made
by name only, with no sink, `find` returns the end iterator and `erase` is given it, which is
undefined. -/
theorem C20_remove_absent_sink_undefined :
    (∀ (w : World) (self : logger_ptr) (s : sink_ptr),
        (Logger.remove_sink w self s).isSome = true ↔ s ∈ (w.loggers self).sinks_)
    ∧ (ab_world.loggers 0).sinks_ = []
    ∧ (Logger.remove_sink ab_world 0 0).isNone = true
    ∧ (two_world.loggers 0).sinks_ = [0, 1]
    ∧ (Logger.remove_sink two_world 0 2).isNone = true := by
  refine ⟨?_, by decide, by decide, by decide, by decide⟩
  intro w self s
  unfold Logger.remove_sink
  split
  · rename_i h
    exact ⟨fun _ => h, fun _ => rfl⟩
  · rename_i h
    exact ⟨fun hc => absurd hc (by simp), fun hs => absurd hs h⟩

end Prc
